import Mathlib

/-!
# Object store: field codec and softbus communicator

A shallow embedding of

* `frameworks/src/object/distributed_object_impl.cpp` (the typed `Put*`
  encoders, `PutNum`, `TransBytes`, `StrToFieldBytes`), and
* `frameworks/src/communicator/communicator_softbus_adapter.cpp`
  (`Init`, `OpenSoftbusLink`, `Destroy`, `SendMsg`).

Bytes are natural numbers below 256; every store into a `uint8_t` is an
explicit `% 256`.  A pointer argument (`void *val`) is modelled by the
memory readable from it, a function from byte offset to byte.
-/

set_option linter.unusedVariables false

namespace OHOS.ObjectStore

/-! ## Field codec: data model -/

/-- The byte vector `Bytes` (`std::vector<uint8_t>`). -/
abbrev Bytes := List Nat

/-- A `std::string`: a sequence of `char`, each one byte. -/
abbrev StdString := List (Fin 256)

/-- Memory readable from a pointer: the byte stored at the pointer plus `j`. -/
abbrev Mem := Nat → Nat

/-- Byte order of the host. -/
inductive Endian where
  | little
  | big
  deriving DecidableEq, Repr

/-- The execution environment of one encoder call: the host byte order and
the bytes that lie in memory right behind the objects whose address is
handed to `PutNum` (which loads eight bytes whatever the object's size). -/
structure Host where
  endian : Endian
  /-- Bytes behind the by-value parameter `flag` of `TransBytes`. -/
  afterFlag : Mem
  /-- Bytes behind the encoder's own `value` (or local `val`). -/
  afterValue : Mem
  /-- Bytes behind the global `VAL_STRING`. -/
  afterValString : Mem

def VAL_NULL : Int := -1
def VAL_STRING : Int := 0
def VAL_INTEGER : Int := 1
def VAL_BOOLEAN : Int := 2
def VAL_SHORT : Int := 3
def VAL_LONG : Int := 4
def VAL_FLOAT : Int := 5
def VAL_DOUBLE : Int := 6
def VAL_CHARACTER : Int := 7
def VAL_BYTE : Int := 8
def VAL_OBJECT : Int := 9

/-- Byte `k` (counted from the least significant one) of the two's
complement representation of `v`. -/
def byteOf (v : Int) (k : Nat) : Nat := ((v / 256 ^ k) % 256).toNat

/-- Object representation of a `W`-byte integer holding `v` (reduced modulo
`2^(8W)`) in host memory: least significant byte first on a little-endian
host, most significant byte first on a big-endian one. -/
def objectRep (e : Endian) (W : Nat) (v : Int) : List Nat :=
  match e with
  | Endian.little => (List.range W).map (fun j => byteOf v j)
  | Endian.big => (List.range W).map (fun j => byteOf v (W - 1 - j))

/-- Memory seen from the address of an object: its representation, then
whatever follows it. -/
def memAt (obj : List Nat) (tail : Mem) : Mem :=
  fun j => if j < obj.length then obj.getD j 0 else tail (j - obj.length)

/-- The `W` least significant bytes of `v`, most significant byte first
(the big-endian wire form the specification asks for). -/
def beBytes (W : Nat) (v : Int) : List Nat :=
  (List.range W).map (fun i => byteOf v (W - 1 - i))

/-! ## Field codec: helpers of the anonymous namespace -/

/-- `IsBigEndian`: stores `0x12345678` in a `uint32_t` and looks at the
byte at its address. -/
def IsBigEndian (e : Endian) : Bool :=
  let data : Int := 0x12345678
  let firstByte := (objectRep e 4 data).getD 0 0
  if firstByte == 0x12 then true else false

/-- `HostToNet<T>` on the object representation `src` of a `T` (the
source's `from`): unchanged on a big-endian host, byte-reversed
(`toByte[i] = fromByte[typeLen - i - 1]`) otherwise. -/
def HostToNet (e : Endian) (src : List Nat) : List Nat :=
  if IsBigEndian e then src
  else
    let typeLen := src.length
    (List.range typeLen).map (fun i => src.getD (typeLen - i - 1) 0)

/-- `NetToHost<T>`. -/
def NetToHost (e : Endian) (src : List Nat) : List Nat := HostToNet e src

/-- The load `*(static_cast<uint64_t *>(val))`: eight bytes at `val`,
combined in host byte order. -/
def loadU64 (e : Endian) (val : Mem) : Nat :=
  match e with
  | Endian.little =>
      (List.range 8).foldl (fun acc j => acc + (val j % 256) * 256 ^ j) 0
  | Endian.big =>
      (List.range 8).foldl (fun acc j => acc + (val j % 256) * 256 ^ (7 - j)) 0

/-- `std::vector::resize(n)` (new elements are zero). -/
def resize (data : Bytes) (n : Nat) : Bytes :=
  data.take n ++ List.replicate (n - data.length) 0

/-- `PutNum(offset, val, valLen, data)`: grows `data` to `offset + valLen`
bytes when it is shorter, then stores, for `i = 0 .. valLen - 1`,
`data[offset + i] = (uint64 at val) >> (valLen - i - 1) * 8`, truncated to
a byte. -/
def PutNum (e : Endian) (offset : Nat) (val : Mem) (valLen : Nat) (data : Bytes) : Bytes :=
  let len := (valLen + offset) % 2 ^ 32
  let data := if len > 1 * data.length then resize data len else data
  (List.range valLen).foldl
    (fun d i => d.set (offset + i) ((loadU64 e val >>> ((valLen - i - 1) * 8)) % 256))
    data

/-- `TransBytes(input, inputLen, flag, data)`; `flag` is a by-value
`int32_t` whose address is passed on to `PutNum`. -/
def TransBytes (h : Host) (input : Mem) (inputLen : Nat) (flag : Int) (data : Bytes) : Bytes :=
  let data := resize data (4 + inputLen)
  let data := PutNum h.endian 0 (memAt (objectRep h.endian 4 flag) h.afterFlag) 4 data
  PutNum h.endian 4 input inputLen data

/-! ## Field codec: `DistributedObjectImpl` -/

/-- Modelled from the spec: `StringUtils::StrToBytes` (string_utils.h is not
among the sources); the payload of a string is "the raw byte encoding of
the text", one byte per `char`. -/
def StrToBytes (src : StdString) : Bytes := src.map (fun c => c.val)

/-- Modelled from the spec: `FlatObject` (flat_object.h is not among the
sources), the field store that "accepts `(keyBuffer, valueBuffer)` pairs of
raw bytes"; it is represented by the pairs handed to `SetField`, in call
order. -/
structure FlatObject where
  fields : List (Bytes × Bytes)
  deriving DecidableEq, Repr

/-- Modelled from the spec: `FlatObject::SetField`, which receives one
`(keyBuffer, valueBuffer)` pair. -/
def FlatObject.SetField (o : FlatObject) (key value : Bytes) : FlatObject :=
  ⟨o.fields ++ [(key, value)]⟩

/-- Modelled from the spec: the status constants of objectstore_errors.h
(not among the sources): `Success`, `OpenSessionError`, `NetworkError`.
Their numeric values are not given, so they are parameters. -/
structure Errors where
  SUCCESS : Nat
  ERR_OPENSESSION : Nat
  ERR_NETWORK : Nat
  deriving DecidableEq, Repr

/-- `DistributedObjectImpl::StrToFieldBytes`. -/
def StrToFieldBytes (h : Host) (src : StdString) : Bytes :=
  let data : Bytes := []
  let data := PutNum h.endian 0 (memAt (objectRep h.endian 4 VAL_STRING) h.afterValString) 4 data
  let dst := StrToBytes src
  data ++ dst

/-- `DistributedObjectImpl::PutChar`; `uint16_t val = value`. -/
def PutChar (E : Errors) (h : Host) (flatObject_ : FlatObject) (key : StdString) (value : Int) :
    Nat × FlatObject :=
  let data : Bytes := []
  let val : Int := value % 2 ^ 16
  let data := TransBytes h (memAt (objectRep h.endian 2 val) h.afterValue) 2 VAL_CHARACTER data
  (E.SUCCESS, flatObject_.SetField (StrToFieldBytes h key) data)

/-- `DistributedObjectImpl::PutInt`. -/
def PutInt (E : Errors) (h : Host) (flatObject_ : FlatObject) (key : StdString) (value : Int) :
    Nat × FlatObject :=
  let data : Bytes := []
  let data := TransBytes h (memAt (objectRep h.endian 4 value) h.afterValue) 4 VAL_INTEGER data
  (E.SUCCESS, flatObject_.SetField (StrToFieldBytes h key) data)

/-- `DistributedObjectImpl::PutShort`. -/
def PutShort (E : Errors) (h : Host) (flatObject_ : FlatObject) (key : StdString) (value : Int) :
    Nat × FlatObject :=
  let data : Bytes := []
  let data := TransBytes h (memAt (objectRep h.endian 2 value) h.afterValue) 2 VAL_SHORT data
  (E.SUCCESS, flatObject_.SetField (StrToFieldBytes h key) data)

/-- `DistributedObjectImpl::PutLong`. -/
def PutLong (E : Errors) (h : Host) (flatObject_ : FlatObject) (key : StdString) (value : Int) :
    Nat × FlatObject :=
  let data : Bytes := []
  let data := TransBytes h (memAt (objectRep h.endian 8 value) h.afterValue) 8 VAL_LONG data
  (E.SUCCESS, flatObject_.SetField (StrToFieldBytes h key) data)

/-- `DistributedObjectImpl::PutFloat`; `value` is the IEEE-754 binary32 bit
pattern of the `float`. -/
def PutFloat (E : Errors) (h : Host) (flatObject_ : FlatObject) (key : StdString) (value : Int) :
    Nat × FlatObject :=
  let data : Bytes := []
  let data := TransBytes h (memAt (objectRep h.endian 4 value) h.afterValue) 4 VAL_FLOAT data
  (E.SUCCESS, flatObject_.SetField (StrToFieldBytes h key) data)

/-- `DistributedObjectImpl::PutDouble`; `value` is the IEEE-754 binary64 bit
pattern of the `double`. -/
def PutDouble (E : Errors) (h : Host) (flatObject_ : FlatObject) (key : StdString) (value : Int) :
    Nat × FlatObject :=
  let data : Bytes := []
  let data := TransBytes h (memAt (objectRep h.endian 8 value) h.afterValue) 8 VAL_DOUBLE data
  (E.SUCCESS, flatObject_.SetField (StrToFieldBytes h key) data)

/-- `DistributedObjectImpl::PutBoolean`; `int32_t val = value ? 1 : 0`. -/
def PutBoolean (E : Errors) (h : Host) (flatObject_ : FlatObject) (key : StdString) (value : Bool) :
    Nat × FlatObject :=
  let data : Bytes := []
  let val : Int := if value then 1 else 0
  let data := TransBytes h (memAt (objectRep h.endian 4 val) h.afterValue) 4 VAL_BOOLEAN data
  (E.SUCCESS, flatObject_.SetField (StrToFieldBytes h key) data)

/-- `DistributedObjectImpl::PutString`. -/
def PutString (E : Errors) (h : Host) (flatObject_ : FlatObject) (key value : StdString) :
    Nat × FlatObject :=
  (E.SUCCESS, flatObject_.SetField (StrToFieldBytes h key) (StrToFieldBytes h value))

/-- `DistributedObjectImpl::PutByte`. -/
def PutByte (E : Errors) (h : Host) (flatObject_ : FlatObject) (key : StdString) (value : Int) :
    Nat × FlatObject :=
  let data : Bytes := []
  let data := TransBytes h (memAt (objectRep h.endian 1 value) h.afterValue) 1 VAL_BYTE data
  (E.SUCCESS, flatObject_.SetField (StrToFieldBytes h key) data)

/-- A little-endian host whose stray memory bytes are all `0xAA`. -/
def littleHostAA : Host := ⟨Endian.little, fun _ => 0xAA, fun _ => 0xAA, fun _ => 0xAA⟩

/-- A big-endian host whose stray memory bytes are all `0xAA`. -/
def bigHostAA : Host := ⟨Endian.big, fun _ => 0xAA, fun _ => 0xAA, fun _ => 0xAA⟩

/-! ## Softbus communicator: data model -/

/-- Modelled from the spec: the two values of the `type` argument of
`SendMsg`, `TYPE_SEND_BYTE` and `TYPE_SEND_MESSAGE` (their header is not
among the sources); their numeric values are parameters. -/
structure SendKinds where
  TYPE_SEND_BYTE : Int
  TYPE_SEND_MESSAGE : Int
  deriving DecidableEq, Repr

/-- Modelled from the spec: the transport's `ISessionListener` (not among
the sources); only its `OnSessionOpened` function pointer is used, `none`
being `nullptr` and the number naming the callback. -/
structure ISessionListener where
  OnSessionOpened : Option Nat
  deriving DecidableEq, Repr

/-- Modelled from the spec: `SoftBusListener` (rpc_network.h is not among
the sources), through its two getters. -/
structure SoftBusListener where
  /-- `GetNodeStateCallback()`, opaque here. -/
  GetNodeStateCallback : Nat
  /-- `GetSessionListener()`, `none` being `nullptr`. -/
  GetSessionListener : Option ISessionListener
  deriving DecidableEq, Repr

/-- What the communicator does to the outside: calls into the transport and
calls of the listener's callback, with their arguments. -/
inductive Event where
  | RegNodeDeviceStateCb (callback : Nat)
  | CreateSessionServer (listener : Option ISessionListener)
  | OpenSession (networkId : String)
  | OnSessionOpened (callback : Nat) (sessionId : Int) (result : Nat)
  | RemoveSessionServer
  | UnregNodeDeviceStateCb (callback : Nat)
  | SendBytes (sessionId : Int) (data : Bytes) (dataSize : Nat)
  | SendMessage (sessionId : Int) (data : Bytes) (dataSize : Nat)
  deriving DecidableEq, Repr

/-- The map `sessionDevDic_` (`std::map<std::string, int32_t>`) as an
association list. -/
abbrev SessionMap := List (String × Int)

/-- `std::map::count`. -/
def SessionMap.count (m : SessionMap) (k : String) : Nat :=
  match m.lookup k with
  | some _ => 1
  | none => 0

/-- `m[k] = v`: overwrites the entry of `k`, or adds one. -/
def SessionMap.assign : SessionMap → String → Int → SessionMap
  | [], k, v => [(k, v)]
  | (k1, v1) :: rest, k, v =>
      if k1 = k then (k, v) :: rest else (k1, v1) :: SessionMap.assign rest k v

/-- Reading `m[k]` (`std::map::operator[]`): the stored value, or, when `k`
has no entry, a value-initialised `0` that is inserted under `k`. -/
def SessionMap.index (m : SessionMap) (k : String) : Int × SessionMap :=
  match m.lookup k with
  | some v => (v, m)
  | none => (0, SessionMap.assign m k 0)

/-- The members of `CommunicatorSoftbusAdapter`. -/
structure CommunicatorSoftbusAdapter where
  sessionDevDic_ : SessionMap
  networkListener_ : Option SoftBusListener
  deriving DecidableEq, Repr

/-- Modelled from the spec: the constructor (communicator_softbus_adapter.h
is not among the sources); "PeerSession map and ListenerBinding are created
empty at construction". -/
def CommunicatorSoftbusAdapter.fresh : CommunicatorSoftbusAdapter := ⟨[], none⟩

/-- Result of one operation: its return value, the members afterwards and
the events it caused, in order. -/
structure Outcome where
  ret : Nat
  state : CommunicatorSoftbusAdapter
  trace : List Event
  deriving DecidableEq, Repr

/-- The way an operation can fail to return. -/
inductive Fault where
  | nullDereference
  deriving DecidableEq, Repr

/-- The callback reached by the test `networkListener_ != nullptr &&
GetSessionListener() != nullptr && OnSessionOpened != nullptr`. -/
def sessionOpenedCallback (l : Option SoftBusListener) : Option Nat :=
  match l with
  | none => none
  | some nl =>
      match nl.GetSessionListener with
      | none => none
      | some sl => sl.OnSessionOpened

/-! ## Softbus communicator: operations

The result of each transport call an operation may make is an argument. -/

/-- `CommunicatorSoftbusAdapter::Init`. -/
def Init (E : Errors) (s : CommunicatorSoftbusAdapter) (networkListener : Option SoftBusListener)
    (createSessionServerRet : Int) : Outcome :=
  match networkListener with
  | none => ⟨E.SUCCESS, s, []⟩
  | some nl =>
      let trace := [Event.RegNodeDeviceStateCb nl.GetNodeStateCallback,
                    Event.CreateSessionServer nl.GetSessionListener]
      let ret := createSessionServerRet
      if ret ≠ 0 then ⟨E.ERR_OPENSESSION, s, trace⟩
      else ⟨E.SUCCESS, { s with networkListener_ := some nl }, trace⟩

/-- `CommunicatorSoftbusAdapter::OpenSoftbusLink`. -/
def OpenSoftbusLink (E : Errors) (s : CommunicatorSoftbusAdapter) (networkName networkId : String)
    (openSessionRet : Int) : Outcome :=
  if 0 ≠ s.sessionDevDic_.count networkId then
    match sessionOpenedCallback s.networkListener_ with
    | some cb =>
        let r := s.sessionDevDic_.index networkId
        ⟨E.SUCCESS, { s with sessionDevDic_ := r.2 }, [Event.OnSessionOpened cb r.1 E.SUCCESS]⟩
    | none => ⟨E.SUCCESS, s, []⟩
  else
    let sessionId := openSessionRet
    if sessionId < 0 then
      match sessionOpenedCallback s.networkListener_ with
      | some cb =>
          let r := s.sessionDevDic_.index networkId
          ⟨E.ERR_OPENSESSION, { s with sessionDevDic_ := r.2 },
            [Event.OpenSession networkId, Event.OnSessionOpened cb r.1 E.ERR_OPENSESSION]⟩
      | none => ⟨E.ERR_OPENSESSION, s, [Event.OpenSession networkId]⟩
    else
      ⟨E.SUCCESS, { s with sessionDevDic_ := s.sessionDevDic_.assign networkId sessionId },
        [Event.OpenSession networkId]⟩

/-- `CommunicatorSoftbusAdapter::Destroy`; `networkListener_->...` on a null
`networkListener_` is the fault. -/
def Destroy (E : Errors) (s : CommunicatorSoftbusAdapter) (removeSessionServerRet : Int) :
    Except Fault Outcome :=
  let ret := removeSessionServerRet
  if ret ≠ 0 then Except.ok ⟨E.ERR_NETWORK, s, [Event.RemoveSessionServer]⟩
  else
    match s.networkListener_ with
    | none => Except.error Fault.nullDereference
    | some nl =>
        Except.ok ⟨E.SUCCESS, ⟨[], none⟩,
          [Event.RemoveSessionServer, Event.UnregNodeDeviceStateCb nl.GetNodeStateCallback]⟩

/-- `CommunicatorSoftbusAdapter::SendMsg`. -/
def SendMsg (E : Errors) (K : SendKinds) (s : CommunicatorSoftbusAdapter) (networkId : String)
    (data : Bytes) (dataSize : Nat) (type : Int) (sendBytesRet sendMessageRet : Int) : Outcome :=
  let ret : Int := E.SUCCESS
  if 0 = s.sessionDevDic_.count networkId then ⟨E.SUCCESS, s, []⟩
  else
    let r := s.sessionDevDic_.index networkId
    let sessionId := r.1
    let s := { s with sessionDevDic_ := r.2 }
    let (ret, trace) :=
      if type = K.TYPE_SEND_BYTE then (sendBytesRet, [Event.SendBytes sessionId data dataSize])
      else (ret, [])
    let (ret, trace) :=
      if type = K.TYPE_SEND_MESSAGE then
        (sendMessageRet, trace ++ [Event.SendMessage sessionId data dataSize])
      else (ret, trace)
    if ret ≠ 0 then ⟨E.ERR_NETWORK, s, trace⟩ else ⟨E.SUCCESS, s, trace⟩

/-- One call of the public interface, with the results of the transport
calls it may make. -/
inductive Call where
  | Init (networkListener : Option SoftBusListener) (createSessionServerRet : Int)
  | OpenSoftbusLink (networkName networkId : String) (openSessionRet : Int)
  | Destroy (removeSessionServerRet : Int)
  | SendMsg (networkId : String) (data : Bytes) (dataSize : Nat) (type : Int)
      (sendBytesRet sendMessageRet : Int)
  deriving DecidableEq, Repr

/-- Performs one call. -/
def step (E : Errors) (K : SendKinds) (s : CommunicatorSoftbusAdapter) :
    Call → Except Fault Outcome
  | Call.Init l r => Except.ok (Init E s l r)
  | Call.OpenSoftbusLink n i r => Except.ok (OpenSoftbusLink E s n i r)
  | Call.Destroy r => Destroy E s r
  | Call.SendMsg i d n t rb rm => Except.ok (SendMsg E K s i d n t rb rm)

/-- Performs the calls in order and collects the outcome of each one; a
faulting call ends the run. -/
def run (E : Errors) (K : SendKinds) (s : CommunicatorSoftbusAdapter) :
    List Call → Except Fault (List Outcome × CommunicatorSoftbusAdapter)
  | [] => Except.ok ([], s)
  | c :: cs =>
      match step E K s c with
      | Except.error f => Except.error f
      | Except.ok o =>
          match run E K o.state cs with
          | Except.error f => Except.error f
          | Except.ok (os, s1) => Except.ok (o :: os, s1)

/-- A listener whose session listener has an `OnSessionOpened` callback. -/
def listenerA : SoftBusListener := ⟨1, some ⟨some 2⟩⟩

/-- Sample values of the status constants, for concrete evaluations. -/
def sampleErrors : Errors := ⟨0, 1, 2⟩

/-- Sample values of the two send kinds, for concrete evaluations. -/
def sampleKinds : SendKinds := ⟨0, 1⟩


/-! ## Typed values -/

/-- One typed `Put` of the interface (the seven with an integer, boolean or
string parameter), with the value passed. -/
inductive TypedPut where
  | char (value : Int)
  | int (value : Int)
  | short (value : Int)
  | long (value : Int)
  | boolean (value : Bool)
  | string (value : StdString)
  | byte (value : Int)
  deriving DecidableEq, Repr

/-- The value lies in the range of the parameter's type: `char` (signed or
unsigned), `int32_t`, `int16_t`, `int64_t`, `int8_t`. -/
def TypedPut.inRange : TypedPut → Bool
  | TypedPut.char v => decide (-128 ≤ v ∧ v ≤ 255)
  | TypedPut.int v => decide (-2147483648 ≤ v ∧ v ≤ 2147483647)
  | TypedPut.short v => decide (-32768 ≤ v ∧ v ≤ 32767)
  | TypedPut.long v => decide (-9223372036854775808 ≤ v ∧ v ≤ 9223372036854775807)
  | TypedPut.boolean _ => true
  | TypedPut.string _ => true
  | TypedPut.byte v => decide (-128 ≤ v ∧ v ≤ 127)

/-- Calls the `Put` operation the typed value belongs to. -/
def TypedPut.call (E : Errors) (h : Host) (flatObject_ : FlatObject) (key : StdString) :
    TypedPut → Nat × FlatObject
  | TypedPut.char v => PutChar E h flatObject_ key v
  | TypedPut.int v => PutInt E h flatObject_ key v
  | TypedPut.short v => PutShort E h flatObject_ key v
  | TypedPut.long v => PutLong E h flatObject_ key v
  | TypedPut.boolean v => PutBoolean E h flatObject_ key v
  | TypedPut.string v => PutString E h flatObject_ key v
  | TypedPut.byte v => PutByte E h flatObject_ key v

/-- The value buffer of the pair most recently handed to `SetField`. -/
def FlatObject.lastValue (o : FlatObject) : Bytes :=
  match o.fields.getLast? with
  | some p => p.2
  | none => []

/-! ## Field codec: lemmas -/

theorem byteOf_lt (v : Int) (k : Nat) : byteOf v k < 256 := by
  unfold byteOf
  have h1 : (0 : Int) ≤ (v / 256 ^ k) % 256 := Int.emod_nonneg _ (by norm_num)
  have h2 : (v / 256 ^ k) % 256 < 256 := Int.emod_lt_of_pos _ (by norm_num)
  omega

theorem beBytes_length (W : Nat) (v : Int) : (beBytes W v).length = W := by
  simp [beBytes]

/-- The little-endian load, written out. -/
theorem loadU64_little (m : Mem) :
    loadU64 Endian.little m
      = m 0 % 256 + (m 1 % 256) * 256 + (m 2 % 256) * 256 ^ 2 + (m 3 % 256) * 256 ^ 3
        + (m 4 % 256) * 256 ^ 4 + (m 5 % 256) * 256 ^ 5 + (m 6 % 256) * 256 ^ 6
        + (m 7 % 256) * 256 ^ 7 := by
  simp [loadU64, List.range, List.range.loop]

/-- Shifting the little-endian load by `k` bytes and truncating yields the
byte at offset `k`. -/
theorem loadU64_little_byte (m : Mem) (k : Nat) (hk : k < 8) :
    (loadU64 Endian.little m >>> (k * 8)) % 256 = m k % 256 := by
  rw [loadU64_little, Nat.shiftRight_eq_div_pow]
  interval_cases k <;> norm_num <;> omega

/-- A loop of `n` stores at `offset, offset + 1, ...` replaces that window of
the vector. -/
theorem foldl_set_range (f : Nat → Nat) (offset : Nat) (data : Bytes) :
    ∀ n, offset + n ≤ data.length →
      (List.range n).foldl (fun d i => d.set (offset + i) (f i)) data
        = data.take offset ++ (List.range n).map f ++ data.drop (offset + n) := by
  intro n
  induction n with
  | zero => intro _; simp
  | succ n ih =>
    intro hn
    have hlt : offset + n < data.length := by omega
    rw [List.range_succ, List.foldl_append, ih (by omega)]
    simp only [List.foldl_cons, List.foldl_nil, List.map_append, List.map_cons, List.map_nil]
    rw [List.drop_eq_getElem_cons hlt]
    have hlen : (List.take offset data ++ List.map f (List.range n)).length = offset + n := by
      simp; omega
    rw [List.set_append]
    simp [hlen, Nat.add_assoc]

/-- `PutNum` in closed form, on any host. -/
theorem PutNum_eq (e : Endian) (offset : Nat) (m : Mem) (valLen : Nat) (data : Bytes)
    (hlen : valLen + offset < 2 ^ 32) :
    PutNum e offset m valLen data
      = (if valLen + offset > data.length then resize data (valLen + offset) else data).take offset
        ++ (List.range valLen).map (fun i => (loadU64 e m >>> ((valLen - i - 1) * 8)) % 256)
        ++ (if valLen + offset > data.length then resize data (valLen + offset) else data).drop
            (offset + valLen) := by
  unfold PutNum
  simp only [Nat.mod_eq_of_lt hlen, Nat.one_mul]
  apply foldl_set_range
  split
  · simp [resize]; omega
  · omega

theorem memAt_objectRep_little (W : Nat) (v : Int) (tail : Mem) (j : Nat) (hj : j < W) :
    memAt (objectRep Endian.little W v) tail j = byteOf v j := by
  simp [memAt, objectRep, hj, List.getD_eq_getElem?_getD, List.getElem?_range]

/-- On a little-endian host the bytes `PutNum` stores for a `W`-byte integer
are its big-endian bytes, whatever lies behind it in memory. -/
theorem PutNum_little_payload (W : Nat) (v : Int) (tail : Mem) (hW : W ≤ 8) :
    (List.range W).map
        (fun i => (loadU64 Endian.little (memAt (objectRep Endian.little W v) tail)
                    >>> ((W - i - 1) * 8)) % 256)
      = beBytes W v := by
  unfold beBytes
  apply List.map_congr_left
  intro i hi
  have hi : i < W := List.mem_range.mp hi
  rw [loadU64_little_byte _ _ (by omega), memAt_objectRep_little _ _ _ _ (by omega),
    Nat.mod_eq_of_lt (byteOf_lt _ _)]
  congr 1
  omega

/-- `TransBytes` on a little-endian host: tag, then payload, both big-endian. -/
theorem TransBytes_little (h : Host) (hle : h.endian = Endian.little) (W : Nat) (hW : W ≤ 8)
    (v flag : Int) :
    TransBytes h (memAt (objectRep h.endian W v) h.afterValue) W flag []
      = beBytes 4 flag ++ beBytes W v := by
  have inner : PutNum Endian.little 0 (memAt (objectRep Endian.little 4 flag) h.afterFlag) 4
      (resize [] (4 + W)) = beBytes 4 flag ++ List.replicate W 0 := by
    rw [PutNum_eq _ _ _ _ _ (by norm_num), PutNum_little_payload 4 flag _ (by norm_num)]
    simp [resize]
  unfold TransBytes
  simp only [hle, inner]
  rw [PutNum_eq _ _ _ _ _ (by omega), PutNum_little_payload W v _ hW]
  have h4 := beBytes_length 4 flag
  have hgt : ¬ (W + 4 > (beBytes 4 flag ++ List.replicate W 0).length) := by
    simp [h4]; omega
  rw [if_neg hgt, List.take_left' h4, List.drop_of_length_le (by simp [h4]), List.append_nil]

/-- `StrToFieldBytes` is a prefix that does not depend on the string,
followed by the string's bytes (any host). -/
theorem StrToFieldBytes_eq (h : Host) (src : StdString) :
    StrToFieldBytes h src
      = PutNum h.endian 0 (memAt (objectRep h.endian 4 VAL_STRING) h.afterValString) 4 []
        ++ StrToBytes src := rfl

/-- On a little-endian host the prefix is the STRING tag. -/
theorem StrToFieldBytes_little (h : Host) (hle : h.endian = Endian.little) (src : StdString) :
    StrToFieldBytes h src = [0, 0, 0, 0] ++ StrToBytes src := by
  rw [StrToFieldBytes_eq, hle, PutNum_eq _ _ _ _ _ (by norm_num),
    PutNum_little_payload 4 VAL_STRING _ (by norm_num)]
  simp [resize, beBytes, VAL_STRING, byteOf, List.range, List.range.loop]

theorem StrToBytes_injective : Function.Injective StrToBytes := by
  unfold StrToBytes
  exact List.map_injective_iff.mpr Fin.val_injective

/-- The sibling helper `HostToNet` does produce the big-endian bytes on a
host of either byte order. -/
theorem HostToNet_objectRep (e : Endian) (v : Int) :
    HostToNet e (objectRep e 4 v) = beBytes 4 v := by
  cases e <;>
    simp [HostToNet, IsBigEndian, objectRep, beBytes, byteOf, List.range, List.range.loop]

/-! ## Field codec: the encoders -/

/-- On a little-endian host, whatever lies behind the value in memory,
each numeric encoder (`PutByte` W=1, `PutShort` W=2, `PutInt` W=4, `PutLong`
W=8, `PutFloat` W=4 and `PutDouble` W=8 on bit patterns) hands over a value
buffer of `4 + W` bytes: the four bytes `00 00 00 tag` (BYTE=8, SHORT=3,
INTEGER=1, LONG=4, FLOAT=5, DOUBLE=6), then the `W` least significant bytes of
the value, most significant first; `PutInt` of `1` gives
`00 00 00 01 00 00 00 01`. -/
theorem numeric_encoders_layout (E : Errors) (h : Host) (hle : h.endian = Endian.little)
    (o : FlatObject) (key : StdString) (v : Int) :
    (PutByte E h o key v).2.fields
        = o.fields ++ [(StrToFieldBytes h key, [0, 0, 0, 8, byteOf v 0])]
    ∧ (PutShort E h o key v).2.fields
        = o.fields ++ [(StrToFieldBytes h key, [0, 0, 0, 3, byteOf v 1, byteOf v 0])]
    ∧ (PutInt E h o key v).2.fields
        = o.fields ++ [(StrToFieldBytes h key,
            [0, 0, 0, 1, byteOf v 3, byteOf v 2, byteOf v 1, byteOf v 0])]
    ∧ (PutLong E h o key v).2.fields
        = o.fields ++ [(StrToFieldBytes h key,
            [0, 0, 0, 4, byteOf v 7, byteOf v 6, byteOf v 5, byteOf v 4,
              byteOf v 3, byteOf v 2, byteOf v 1, byteOf v 0])]
    ∧ (PutFloat E h o key v).2.fields
        = o.fields ++ [(StrToFieldBytes h key,
            [0, 0, 0, 5, byteOf v 3, byteOf v 2, byteOf v 1, byteOf v 0])]
    ∧ (PutDouble E h o key v).2.fields
        = o.fields ++ [(StrToFieldBytes h key,
            [0, 0, 0, 6, byteOf v 7, byteOf v 6, byteOf v 5, byteOf v 4,
              byteOf v 3, byteOf v 2, byteOf v 1, byteOf v 0])]
    ∧ (PutInt E h o key 1).2.fields
        = o.fields ++ [(StrToFieldBytes h key, [0, 0, 0, 1, 0, 0, 0, 1])] := by
  have tag : ∀ t : Nat, t < 256 → beBytes 4 (t : Int) = [0, 0, 0, t] := by
    intro t ht
    simp [beBytes, byteOf, List.range, List.range.loop]
    omega
  have t8 := tag 8 (by norm_num)
  have t3 := tag 3 (by norm_num)
  have t1 := tag 1 (by norm_num)
  have t4 := tag 4 (by norm_num)
  have t5 := tag 5 (by norm_num)
  have t6 := tag 6 (by norm_num)
  simp only [Nat.cast_ofNat, Nat.cast_one] at t8 t3 t1 t4 t5 t6
  refine ⟨?_, ?_, ?_, ?_, ?_, ?_, ?_⟩
  · simp only [PutByte, FlatObject.SetField, TransBytes_little h hle 1 (by norm_num), VAL_BYTE, t8]
    simp [beBytes, List.range, List.range.loop]
  · simp only [PutShort, FlatObject.SetField, TransBytes_little h hle 2 (by norm_num), VAL_SHORT, t3]
    simp [beBytes, List.range, List.range.loop]
  · simp only [PutInt, FlatObject.SetField, TransBytes_little h hle 4 (by norm_num), VAL_INTEGER, t1]
    simp [beBytes, List.range, List.range.loop]
  · simp only [PutLong, FlatObject.SetField, TransBytes_little h hle 8 (by norm_num), VAL_LONG, t4]
    simp [beBytes, List.range, List.range.loop]
  · simp only [PutFloat, FlatObject.SetField, TransBytes_little h hle 4 (by norm_num), VAL_FLOAT, t5]
    simp [beBytes, List.range, List.range.loop]
  · simp only [PutDouble, FlatObject.SetField, TransBytes_little h hle 8 (by norm_num), VAL_DOUBLE, t6]
    simp [beBytes, List.range, List.range.loop]
  · simp only [PutInt, FlatObject.SetField, TransBytes_little h hle 4 (by norm_num), VAL_INTEGER, t1]
    simp [beBytes, byteOf, List.range, List.range.loop]

theorem numeric_encoders_layout_witness :
    littleHostAA.endian = Endian.little
    ∧ (PutInt sampleErrors littleHostAA ⟨[]⟩ [105, 100] 258).2.fields
        = [([0, 0, 0, 0, 105, 100], [0, 0, 0, 1, 0, 0, 1, 2])] :=
  ⟨rfl, (numeric_encoders_layout sampleErrors littleHostAA rfl ⟨[]⟩ [105, 100] 258).2.2.1⟩

/-- C2: the encoded buffer does depend on the host byte order. `PutInt` of
the value `1`, with every stray memory byte `0xAA`, hands over
`00 00 00 01 00 00 00 01` on a little-endian host and
`AA AA AA AA AA AA AA AA` (the bytes behind `flag` and behind `value`) on a
big-endian one; the keys differ in the same way. Only an eight-byte payload
comes out the same. -/
theorem PutInt_depends_on_host_byte_order :
    (PutInt sampleErrors littleHostAA ⟨[]⟩ [105, 100] 1).2.fields
        = [([0, 0, 0, 0, 105, 100], [0, 0, 0, 1, 0, 0, 0, 1])]
    ∧ (PutInt sampleErrors bigHostAA ⟨[]⟩ [105, 100] 1).2.fields
        = [([0xAA, 0xAA, 0xAA, 0xAA, 105, 100],
            [0xAA, 0xAA, 0xAA, 0xAA, 0xAA, 0xAA, 0xAA, 0xAA])]
    ∧ (PutLong sampleErrors bigHostAA ⟨[]⟩ [105, 100] 1).2.fields
        = [([0xAA, 0xAA, 0xAA, 0xAA, 105, 100],
            [0xAA, 0xAA, 0xAA, 0xAA, 0, 0, 0, 0, 0, 0, 0, 1])] := by
  decide

/-- On a little-endian host `StrToFieldBytes s` is `00 00 00 00` followed
by exactly the bytes of `s` (none added for the length), so it has
`4 + |s|` bytes, also for the empty string; `PutString` hands over
`StrToFieldBytes value` as the value buffer; `"id"` (bytes 105, 100) gives
`00 00 00 00 69 64`. -/
theorem StrToFieldBytes_layout (E : Errors) (h : Host) (hle : h.endian = Endian.little)
    (o : FlatObject) (key s : StdString) :
    StrToFieldBytes h s = [0, 0, 0, 0] ++ s.map (fun c => c.val)
    ∧ (StrToFieldBytes h s).length = 4 + s.length
    ∧ StrToFieldBytes h [] = [0, 0, 0, 0]
    ∧ (PutString E h o key s).2.fields
        = o.fields ++ [(StrToFieldBytes h key, StrToFieldBytes h s)]
    ∧ StrToFieldBytes h [105, 100] = [0, 0, 0, 0, 105, 100] := by
  refine ⟨?_, ?_, ?_, ?_, ?_⟩
  · rw [StrToFieldBytes_little h hle]; rfl
  · rw [StrToFieldBytes_little h hle]; simp [StrToBytes]; omega
  · rw [StrToFieldBytes_little h hle]; rfl
  · rfl
  · rw [StrToFieldBytes_little h hle]; rfl

theorem StrToFieldBytes_layout_witness :
    littleHostAA.endian = Endian.little
    ∧ (PutString sampleErrors littleHostAA ⟨[]⟩ [107] [105, 100]).2.fields
        = [([0, 0, 0, 0, 107], [0, 0, 0, 0, 105, 100])] :=
  ⟨rfl, (StrToFieldBytes_layout sampleErrors littleHostAA rfl ⟨[]⟩ [107] [105, 100]).2.2.2.1⟩

/-- C4: on any host, `StrToFieldBytes k1 = StrToFieldBytes k2` exactly when
`k1 = k2`, whether the two strings have the same length or not. -/
theorem StrToFieldBytes_injective (h : Host) (k1 k2 : StdString) :
    StrToFieldBytes h k1 = StrToFieldBytes h k2 ↔ k1 = k2 := by
  constructor
  · intro heq
    rw [StrToFieldBytes_eq, StrToFieldBytes_eq] at heq
    exact StrToBytes_injective (List.append_cancel_left heq)
  · intro heq
    rw [heq]

/-- On a little-endian host `PutBoolean` hands over the eight bytes
`00 00 00 02 00 00 00 01` for `true` and `00 00 00 02 00 00 00 00` for
`false`. -/
theorem PutBoolean_layout (E : Errors) (h : Host) (hle : h.endian = Endian.little)
    (o : FlatObject) (key : StdString) (b : Bool) :
    (PutBoolean E h o key b).2.fields
      = o.fields ++ [(StrToFieldBytes h key, [0, 0, 0, 2, 0, 0, 0, if b then 1 else 0])] := by
  simp only [PutBoolean, FlatObject.SetField, TransBytes_little h hle 4 (by norm_num)]
  cases b <;> simp [beBytes, byteOf, VAL_BOOLEAN, List.range, List.range.loop]

theorem PutBoolean_layout_witness :
    littleHostAA.endian = Endian.little
    ∧ (PutBoolean sampleErrors littleHostAA ⟨[]⟩ [107] true).2.fields
        = [([0, 0, 0, 0, 107], [0, 0, 0, 2, 0, 0, 0, 1])] :=
  ⟨rfl, PutBoolean_layout sampleErrors littleHostAA rfl ⟨[]⟩ [107] true⟩

/-- The four tag bytes of a small non-negative tag. -/
theorem beBytes_tag (t : Nat) (ht : t < 256) : beBytes 4 (t : Int) = [0, 0, 0, t] := by
  simp [beBytes, byteOf, List.range, List.range.loop]
  omega

/-- On a little-endian host every typed `Put` returns `SUCCESS` and adds
exactly one pair to the field store; the key buffer is always
`StrToFieldBytes key`, which starts with the STRING tag `00 00 00 00`, and
the value buffer starts with the tag of the value's own type (CHARACTER=7,
INTEGER=1, SHORT=3, LONG=4, FLOAT=5, DOUBLE=6, BOOLEAN=2, STRING=0, BYTE=8). -/
theorem Put_returns_SUCCESS_with_one_pair (E : Errors) (h : Host)
    (hle : h.endian = Endian.little) (o : FlatObject) (key s : StdString) (v : Int) (b : Bool) :
    StrToFieldBytes h key = [0, 0, 0, 0] ++ StrToBytes key
    ∧ PutChar E h o key v
        = (E.SUCCESS, ⟨o.fields ++ [(StrToFieldBytes h key, [0, 0, 0, 7] ++ beBytes 2 (v % 2 ^ 16))]⟩)
    ∧ PutInt E h o key v
        = (E.SUCCESS, ⟨o.fields ++ [(StrToFieldBytes h key, [0, 0, 0, 1] ++ beBytes 4 v)]⟩)
    ∧ PutShort E h o key v
        = (E.SUCCESS, ⟨o.fields ++ [(StrToFieldBytes h key, [0, 0, 0, 3] ++ beBytes 2 v)]⟩)
    ∧ PutLong E h o key v
        = (E.SUCCESS, ⟨o.fields ++ [(StrToFieldBytes h key, [0, 0, 0, 4] ++ beBytes 8 v)]⟩)
    ∧ PutFloat E h o key v
        = (E.SUCCESS, ⟨o.fields ++ [(StrToFieldBytes h key, [0, 0, 0, 5] ++ beBytes 4 v)]⟩)
    ∧ PutDouble E h o key v
        = (E.SUCCESS, ⟨o.fields ++ [(StrToFieldBytes h key, [0, 0, 0, 6] ++ beBytes 8 v)]⟩)
    ∧ PutBoolean E h o key b
        = (E.SUCCESS, ⟨o.fields ++ [(StrToFieldBytes h key,
            [0, 0, 0, 2] ++ beBytes 4 (if b then 1 else 0))]⟩)
    ∧ PutString E h o key s
        = (E.SUCCESS, ⟨o.fields ++ [(StrToFieldBytes h key, [0, 0, 0, 0] ++ StrToBytes s)]⟩)
    ∧ PutByte E h o key v
        = (E.SUCCESS, ⟨o.fields ++ [(StrToFieldBytes h key, [0, 0, 0, 8] ++ beBytes 1 v)]⟩) := by
  have t7 := beBytes_tag 7 (by norm_num)
  have t1 := beBytes_tag 1 (by norm_num)
  have t3 := beBytes_tag 3 (by norm_num)
  have t4 := beBytes_tag 4 (by norm_num)
  have t5 := beBytes_tag 5 (by norm_num)
  have t6 := beBytes_tag 6 (by norm_num)
  have t2 := beBytes_tag 2 (by norm_num)
  have t8 := beBytes_tag 8 (by norm_num)
  simp only [Nat.cast_ofNat, Nat.cast_one] at t7 t1 t3 t4 t5 t6 t2 t8
  refine ⟨StrToFieldBytes_little h hle key, ?_, ?_, ?_, ?_, ?_, ?_, ?_, ?_, ?_⟩
  · simp only [PutChar, FlatObject.SetField, TransBytes_little h hle 2 (by norm_num),
      VAL_CHARACTER, t7]
  · simp only [PutInt, FlatObject.SetField, TransBytes_little h hle 4 (by norm_num),
      VAL_INTEGER, t1]
  · simp only [PutShort, FlatObject.SetField, TransBytes_little h hle 2 (by norm_num),
      VAL_SHORT, t3]
  · simp only [PutLong, FlatObject.SetField, TransBytes_little h hle 8 (by norm_num),
      VAL_LONG, t4]
  · simp only [PutFloat, FlatObject.SetField, TransBytes_little h hle 4 (by norm_num),
      VAL_FLOAT, t5]
  · simp only [PutDouble, FlatObject.SetField, TransBytes_little h hle 8 (by norm_num),
      VAL_DOUBLE, t6]
  · simp only [PutBoolean, FlatObject.SetField, TransBytes_little h hle 4 (by norm_num),
      VAL_BOOLEAN, t2]
  · simp only [PutString, FlatObject.SetField, StrToFieldBytes_little h hle s]
  · simp only [PutByte, FlatObject.SetField, TransBytes_little h hle 1 (by norm_num),
      VAL_BYTE, t8]

theorem Put_returns_SUCCESS_with_one_pair_witness :
    littleHostAA.endian = Endian.little
    ∧ PutShort sampleErrors littleHostAA ⟨[]⟩ [107] (-2)
        = (0, ⟨[([0, 0, 0, 0, 107], [0, 0, 0, 3, 255, 254])]⟩) :=
  ⟨rfl, (Put_returns_SUCCESS_with_one_pair sampleErrors littleHostAA rfl ⟨[]⟩ [107] [] (-2)
    true).2.2.2.1⟩

/-! ## Softbus communicator: the session map -/

theorem SessionMap.count_eq_zero (m : SessionMap) (k : String) :
    m.count k = 0 ↔ m.lookup k = none := by
  unfold SessionMap.count
  cases hl : m.lookup k <;> simp

theorem SessionMap.lookup_assign_self (m : SessionMap) (k : String) (v : Int) :
    (m.assign k v).lookup k = some v := by
  induction m with
  | nil => simp [SessionMap.assign, List.lookup]
  | cons p rest ih =>
    obtain ⟨k1, v1⟩ := p
    by_cases hk : k1 = k
    · simp [SessionMap.assign, hk, List.lookup]
    · have hne : (k == k1) = false := by simpa using fun h => hk h.symm
      simp [SessionMap.assign, hk, List.lookup, hne, ih]

theorem SessionMap.lookup_assign_other (m : SessionMap) (k k2 : String) (v : Int)
    (hne : k2 ≠ k) : (m.assign k v).lookup k2 = m.lookup k2 := by
  induction m with
  | nil =>
    have h1 : (k2 == k) = false := by simpa using hne
    simp [SessionMap.assign, List.lookup, h1]
  | cons p rest ih =>
    obtain ⟨k1, v1⟩ := p
    by_cases hk : k1 = k
    · subst hk
      have h1 : (k2 == k1) = false := by simpa using hne
      simp [SessionMap.assign, List.lookup, h1]
    · simp only [SessionMap.assign, hk, if_false, List.lookup]
      rw [ih]

theorem SessionMap.filter_assign_absent (m : SessionMap) (k : String) (v : Int)
    (habs : m.lookup k = none) :
    (m.assign k v).filter (fun p => p.1 = k) = [(k, v)] := by
  induction m with
  | nil => simp [SessionMap.assign]
  | cons p rest ih =>
    obtain ⟨k1, v1⟩ := p
    by_cases hk : k1 = k
    · subst hk
      simp [List.lookup] at habs
    · have hne : (k == k1) = false := by simpa using fun h => hk h.symm
      simp only [List.lookup, hne] at habs
      simp [SessionMap.assign, hk, List.filter_cons, ih habs]

theorem SessionMap.index_present (m : SessionMap) (k : String) (v : Int)
    (hl : m.lookup k = some v) : m.index k = (v, m) := by
  simp [SessionMap.index, hl]

/-! ## Softbus communicator: the operations -/

/-- C7: a run from the freshly constructed communicator in which no
`OpenSoftbusLink` succeeds, yet the following `SendMsg` reaches the transport.
`Init` binds a listener with an `OnSessionOpened` callback, `OpenSoftbusLink`
for `"deviceA"` fails in the transport (`OpenSession` gives `-1`, the call
returns `ERR_OPENSESSION`), and reading `sessionDevDic_[networkId]` for the
callback leaves the entry `"deviceA" ↦ 0` behind; the byte-kind `SendMsg` to
`"deviceA"` then calls `SendBytes` with handle `0` and, the send failing,
returns `ERR_NETWORK`. -/
theorem SendMsg_after_failed_OpenSoftbusLink (E : Errors) (K : SendKinds) :
    ∃ o1 o2 o3 s,
      run E K CommunicatorSoftbusAdapter.fresh
          [Call.Init (some listenerA) 0, Call.OpenSoftbusLink "net" "deviceA" (-1),
            Call.SendMsg "deviceA" [1, 2, 3] 3 K.TYPE_SEND_BYTE 1 1]
        = Except.ok ([o1, o2, o3], s)
      ∧ o1.ret = E.SUCCESS
      ∧ o2.ret = E.ERR_OPENSESSION
      ∧ o2.state.sessionDevDic_ = [("deviceA", 0)]
      ∧ o3.ret = E.ERR_NETWORK
      ∧ Event.SendBytes 0 [1, 2, 3] 3 ∈ o3.trace := by
  refine ⟨_, _, _, _, rfl, rfl, rfl, rfl, ?_, ?_⟩
  · simp only [SendMsg, SessionMap.count, SessionMap.index, OpenSoftbusLink, Init,
      sessionOpenedCallback, listenerA, CommunicatorSoftbusAdapter.fresh, SessionMap.assign,
      List.lookup]
    by_cases hk : K.TYPE_SEND_BYTE = K.TYPE_SEND_MESSAGE <;> simp [hk]
  · simp only [SendMsg, SessionMap.count, SessionMap.index, OpenSoftbusLink, Init,
      sessionOpenedCallback, listenerA, CommunicatorSoftbusAdapter.fresh, SessionMap.assign,
      List.lookup]
    by_cases hk : K.TYPE_SEND_BYTE = K.TYPE_SEND_MESSAGE <;> simp [hk]

/-- C8: a failed `OpenSoftbusLink` does leave a session entry behind. With a
listener bound whose `OnSessionOpened` is set and no entry for `"deviceA"`,
an `OpenSession` result of `-1` makes the call return `ERR_OPENSESSION` and
notify `OnSessionOpened(0, ERR_OPENSESSION)`, and the map afterwards holds
`"deviceA" ↦ 0`, the value `sessionDevDic_[networkId]` inserted when it was
read for the callback. -/
theorem OpenSoftbusLink_failure_inserts_entry (E : Errors) :
    OpenSoftbusLink E ⟨[], some listenerA⟩ "net" "deviceA" (-1)
      = ⟨E.ERR_OPENSESSION, ⟨[("deviceA", 0)], some listenerA⟩,
          [Event.OpenSession "deviceA", Event.OnSessionOpened 2 0 E.ERR_OPENSESSION]⟩
    ∧ (OpenSoftbusLink E ⟨[], some listenerA⟩ "net" "deviceA" (-1)).state.sessionDevDic_.lookup
        "deviceA" = some 0 := by
  constructor <;> rfl

/-- C9: from a state without an entry for `networkId` and with a listener
whose `OnSessionOpened` callback `cb` is set, when the first
`OpenSoftbusLink` gets the handle `h ≥ 0` from the transport, it returns
`SUCCESS`, and a second `OpenSoftbusLink` for the same `networkId` returns
`SUCCESS`, makes no transport call, invokes `OnSessionOpened(h, SUCCESS)`
exactly once (its whole trace), leaves the state as the first call left it,
and the map has exactly one entry for `networkId`, namely `networkId ↦ h`. -/
theorem OpenSoftbusLink_idempotent (E : Errors) (s : CommunicatorSoftbusAdapter)
    (networkName networkId : String) (h r2 : Int) (cb : Nat)
    (habs : s.sessionDevDic_.lookup networkId = none)
    (hcb : sessionOpenedCallback s.networkListener_ = some cb)
    (hh : 0 ≤ h) :
    (OpenSoftbusLink E s networkName networkId h).ret = E.SUCCESS
    ∧ (OpenSoftbusLink E s networkName networkId h).trace = [Event.OpenSession networkId]
    ∧ (OpenSoftbusLink E (OpenSoftbusLink E s networkName networkId h).state networkName
          networkId r2).ret = E.SUCCESS
    ∧ (OpenSoftbusLink E (OpenSoftbusLink E s networkName networkId h).state networkName
          networkId r2).trace = [Event.OnSessionOpened cb h E.SUCCESS]
    ∧ (OpenSoftbusLink E (OpenSoftbusLink E s networkName networkId h).state networkName
          networkId r2).state = (OpenSoftbusLink E s networkName networkId h).state
    ∧ (OpenSoftbusLink E (OpenSoftbusLink E s networkName networkId h).state networkName
          networkId r2).state.sessionDevDic_.filter (fun p => p.1 = networkId)
        = [(networkId, h)]
    ∧ (OpenSoftbusLink E (OpenSoftbusLink E s networkName networkId h).state networkName
          networkId r2).state.sessionDevDic_.lookup networkId = some h := by
  have hcount : s.sessionDevDic_.count networkId = 0 :=
    (SessionMap.count_eq_zero _ _).mpr habs
  have hnot : ¬ h < 0 := by omega
  have first : OpenSoftbusLink E s networkName networkId h
      = ⟨E.SUCCESS, { s with sessionDevDic_ := s.sessionDevDic_.assign networkId h },
          [Event.OpenSession networkId]⟩ := by
    simp [OpenSoftbusLink, hcount, hnot]
  have hl := SessionMap.lookup_assign_self s.sessionDevDic_ networkId h
  have hcount2 : 0 ≠ (s.sessionDevDic_.assign networkId h).count networkId := by
    simp [SessionMap.count, hl]
  have second : OpenSoftbusLink E
      { s with sessionDevDic_ := s.sessionDevDic_.assign networkId h } networkName networkId r2
      = ⟨E.SUCCESS, { s with sessionDevDic_ := s.sessionDevDic_.assign networkId h },
          [Event.OnSessionOpened cb h E.SUCCESS]⟩ := by
    rw [OpenSoftbusLink, if_pos hcount2]
    simp only [hcb, SessionMap.index_present _ _ _ hl]
  rw [first]
  dsimp only
  rw [second]
  exact ⟨rfl, rfl, rfl, rfl, rfl, SessionMap.filter_assign_absent _ _ _ habs, hl⟩

theorem OpenSoftbusLink_idempotent_witness :
    (OpenSoftbusLink sampleErrors
        (OpenSoftbusLink sampleErrors ⟨[("deviceB", 3)], some listenerA⟩ "net" "deviceA" 7).state
        "net" "deviceA" 9).trace = [Event.OnSessionOpened 2 7 0]
    ∧ (OpenSoftbusLink sampleErrors
        (OpenSoftbusLink sampleErrors ⟨[("deviceB", 3)], some listenerA⟩ "net" "deviceA" 7).state
        "net" "deviceA" 9).state.sessionDevDic_ = [("deviceB", 3), ("deviceA", 7)] :=
  ⟨(OpenSoftbusLink_idempotent sampleErrors ⟨[("deviceB", 3)], some listenerA⟩ "net" "deviceA"
      7 9 2 (by decide) (by decide) (by decide)).2.2.2.1, by decide⟩

/-- C10: from a state without an entry for `networkId`, when the transport's
`OpenSession` gives a handle `h ≥ 0`, `OpenSoftbusLink` returns `SUCCESS`,
its only event is the `OpenSession` call (the listener is not invoked), the
map afterwards maps `networkId` to `h`, every other key reads as before and
the listener binding is unchanged; a following byte-kind `SendMsg` to
`networkId` calls `SendBytes` with handle `h` first. -/
theorem OpenSoftbusLink_success (E : Errors) (K : SendKinds) (s : CommunicatorSoftbusAdapter)
    (networkName networkId : String) (h : Int) (data : Bytes) (dataSize : Nat) (rb rm : Int)
    (habs : s.sessionDevDic_.lookup networkId = none)
    (hh : 0 ≤ h) :
    (OpenSoftbusLink E s networkName networkId h).ret = E.SUCCESS
    ∧ (OpenSoftbusLink E s networkName networkId h).trace = [Event.OpenSession networkId]
    ∧ (∀ cb sid res,
        Event.OnSessionOpened cb sid res ∉ (OpenSoftbusLink E s networkName networkId h).trace)
    ∧ (OpenSoftbusLink E s networkName networkId h).state.sessionDevDic_.lookup networkId
        = some h
    ∧ (∀ k, k ≠ networkId →
        (OpenSoftbusLink E s networkName networkId h).state.sessionDevDic_.lookup k
          = s.sessionDevDic_.lookup k)
    ∧ (OpenSoftbusLink E s networkName networkId h).state.networkListener_ = s.networkListener_
    ∧ (SendMsg E K (OpenSoftbusLink E s networkName networkId h).state networkId data dataSize
          K.TYPE_SEND_BYTE rb rm).trace.head?
        = some (Event.SendBytes h data dataSize) := by
  have hcount : s.sessionDevDic_.count networkId = 0 :=
    (SessionMap.count_eq_zero _ _).mpr habs
  have hnot : ¬ h < 0 := by omega
  have first : OpenSoftbusLink E s networkName networkId h
      = ⟨E.SUCCESS, { s with sessionDevDic_ := s.sessionDevDic_.assign networkId h },
          [Event.OpenSession networkId]⟩ := by
    simp [OpenSoftbusLink, hcount, hnot]
  have hl := SessionMap.lookup_assign_self s.sessionDevDic_ networkId h
  have hcount2 : ¬ (0 = (s.sessionDevDic_.assign networkId h).count networkId) := by
    simp [SessionMap.count, hl]
  rw [first]
  refine ⟨rfl, rfl, ?_, hl, ?_, rfl, ?_⟩
  · intro cb sid res
    simp
  · intro k hk
    exact SessionMap.lookup_assign_other _ _ _ _ hk
  · simp only [SendMsg, hcount2, if_false, SessionMap.index_present _ _ _ hl, if_true]
    by_cases hk : K.TYPE_SEND_BYTE = K.TYPE_SEND_MESSAGE <;>
      by_cases hr : rb = 0 <;> by_cases hm : rm = 0 <;>
      by_cases hs : (E.SUCCESS : Int) = 0 <;> simp [hk, hr, hm, hs]

theorem OpenSoftbusLink_success_witness :
    (OpenSoftbusLink sampleErrors CommunicatorSoftbusAdapter.fresh "net" "deviceA"
        7).state.sessionDevDic_.lookup "deviceA" = some 7
    ∧ (SendMsg sampleErrors sampleKinds
        (OpenSoftbusLink sampleErrors CommunicatorSoftbusAdapter.fresh "net" "deviceA" 7).state
        "deviceA" [1, 2, 3] 3 sampleKinds.TYPE_SEND_BYTE 0 0).trace.head?
        = some (Event.SendBytes 7 [1, 2, 3] 3) :=
  ⟨(OpenSoftbusLink_success sampleErrors sampleKinds CommunicatorSoftbusAdapter.fresh "net"
      "deviceA" 7 [1, 2, 3] 3 0 0 (by decide) (by decide)).2.2.2.1,
   (OpenSoftbusLink_success sampleErrors sampleKinds CommunicatorSoftbusAdapter.fresh "net"
      "deviceA" 7 [1, 2, 3] 3 0 0 (by decide) (by decide)).2.2.2.2.2.2⟩

/-- `SendMsg` with an entry for the peer, in closed form: the handle read is
the stored one and the map is not touched. -/
theorem SendMsg_present (E : Errors) (K : SendKinds) (s : CommunicatorSoftbusAdapter)
    (networkId : String) (h : Int) (data : Bytes) (dataSize : Nat) (type rb rm : Int)
    (hl : s.sessionDevDic_.lookup networkId = some h) :
    SendMsg E K s networkId data dataSize type rb rm
      = ⟨if (if type = K.TYPE_SEND_MESSAGE then rm
              else if type = K.TYPE_SEND_BYTE then rb else (E.SUCCESS : Int)) ≠ 0
          then E.ERR_NETWORK else E.SUCCESS,
         s,
         (if type = K.TYPE_SEND_BYTE then [Event.SendBytes h data dataSize] else [])
          ++ (if type = K.TYPE_SEND_MESSAGE then [Event.SendMessage h data dataSize] else [])⟩ := by
  obtain ⟨m, l⟩ := s
  have hcount : ¬ (0 = SessionMap.count m networkId) := by
    simp only [SessionMap.count, hl]
    decide
  simp only [SendMsg, hcount, if_false, SessionMap.index_present _ _ _ hl]
  by_cases hb : type = K.TYPE_SEND_BYTE <;> by_cases hm : type = K.TYPE_SEND_MESSAGE <;>
    simp only [hb, hm, if_true, if_false, List.nil_append, List.append_nil] <;>
    split_ifs <;> simp_all

/-- `SendMsg` without an entry for the peer. -/
theorem SendMsg_absent (E : Errors) (K : SendKinds) (s : CommunicatorSoftbusAdapter)
    (networkId : String) (data : Bytes) (dataSize : Nat) (type rb rm : Int)
    (hl : s.sessionDevDic_.lookup networkId = none) :
    SendMsg E K s networkId data dataSize type rb rm = ⟨E.SUCCESS, s, []⟩ := by
  have hcount : 0 = s.sessionDevDic_.count networkId := by
    simp [SessionMap.count, hl]
  simp only [SendMsg, ← hcount, if_true]

/-- C11: in a state that maps `networkId` to the handle `h`, with the two
kinds distinct and `ERR_NETWORK` distinct from `SUCCESS`: a byte-kind
`SendMsg` makes exactly the one transport call `SendBytes(h, data, dataSize)`
and no `SendMessage` call, a message-kind `SendMsg` exactly the one call
`SendMessage(h, data, dataSize)` and no `SendBytes` call; either returns
`ERR_NETWORK` exactly when that call's result is not zero, and `SUCCESS`
otherwise. -/
theorem SendMsg_dispatches_by_kind (E : Errors) (K : SendKinds)
    (s : CommunicatorSoftbusAdapter) (networkId : String) (h : Int) (data : Bytes)
    (dataSize : Nat) (rb rm : Int)
    (hl : s.sessionDevDic_.lookup networkId = some h)
    (hK : K.TYPE_SEND_BYTE ≠ K.TYPE_SEND_MESSAGE)
    (hE : E.ERR_NETWORK ≠ E.SUCCESS) :
    (SendMsg E K s networkId data dataSize K.TYPE_SEND_BYTE rb rm).trace
        = [Event.SendBytes h data dataSize]
    ∧ ((SendMsg E K s networkId data dataSize K.TYPE_SEND_BYTE rb rm).ret = E.ERR_NETWORK
        ↔ rb ≠ 0)
    ∧ ((SendMsg E K s networkId data dataSize K.TYPE_SEND_BYTE rb rm).ret = E.SUCCESS
        ↔ rb = 0)
    ∧ (SendMsg E K s networkId data dataSize K.TYPE_SEND_MESSAGE rb rm).trace
        = [Event.SendMessage h data dataSize]
    ∧ ((SendMsg E K s networkId data dataSize K.TYPE_SEND_MESSAGE rb rm).ret = E.ERR_NETWORK
        ↔ rm ≠ 0)
    ∧ ((SendMsg E K s networkId data dataSize K.TYPE_SEND_MESSAGE rb rm).ret = E.SUCCESS
        ↔ rm = 0) := by
  have hK2 : ¬ K.TYPE_SEND_MESSAGE = K.TYPE_SEND_BYTE := fun e => hK e.symm
  have hE2 : ¬ E.SUCCESS = E.ERR_NETWORK := fun e => hE e.symm
  rw [SendMsg_present E K s networkId h data dataSize _ rb rm hl,
    SendMsg_present E K s networkId h data dataSize _ rb rm hl]
  simp only [hK, hK2, if_true, if_false, List.append_nil, List.nil_append]
  refine ⟨trivial, ?_, ?_, trivial, ?_, ?_⟩
  · by_cases hr : rb = 0 <;> simp [hr, hE2]
  · by_cases hr : rb = 0 <;> simp [hr, hE]
  · by_cases hr : rm = 0 <;> simp [hr, hE2]
  · by_cases hr : rm = 0 <;> simp [hr, hE]

theorem SendMsg_dispatches_by_kind_witness :
    (SendMsg sampleErrors sampleKinds ⟨[("deviceA", 7)], none⟩ "deviceA" [1, 2, 3] 3
        sampleKinds.TYPE_SEND_MESSAGE 0 5).trace = [Event.SendMessage 7 [1, 2, 3] 3]
    ∧ ((SendMsg sampleErrors sampleKinds ⟨[("deviceA", 7)], none⟩ "deviceA" [1, 2, 3] 3
        sampleKinds.TYPE_SEND_MESSAGE 0 5).ret = sampleErrors.ERR_NETWORK ↔ (5 : Int) ≠ 0) :=
  ⟨(SendMsg_dispatches_by_kind sampleErrors sampleKinds ⟨[("deviceA", 7)], none⟩ "deviceA" 7
      [1, 2, 3] 3 0 5 (by decide) (by decide) (by decide)).2.2.2.1,
   (SendMsg_dispatches_by_kind sampleErrors sampleKinds ⟨[("deviceA", 7)], none⟩ "deviceA" 7
      [1, 2, 3] 3 0 5 (by decide) (by decide) (by decide)).2.2.2.2.1⟩

/-- C12: `Destroy` does not return `SUCCESS` in every state in which the
transport's removal succeeds. On the freshly constructed communicator, and on
any state without a bound listener (here one that still holds a session
entry), a removal result of `0` leads to `networkListener_->...` on the null
`networkListener_`: the call faults and the map is not cleared. -/
theorem Destroy_faults_without_listener (E : Errors) :
    Destroy E CommunicatorSoftbusAdapter.fresh 0 = Except.error Fault.nullDereference
    ∧ Destroy E ⟨[("deviceA", 7)], none⟩ 0 = Except.error Fault.nullDereference
    ∧ Destroy E ⟨[("deviceA", 7)], none⟩ 1
        = Except.ok ⟨E.ERR_NETWORK, ⟨[("deviceA", 7)], none⟩, [Event.RemoveSessionServer]⟩
    ∧ Destroy E ⟨[("deviceA", 7)], some listenerA⟩ 0
        = Except.ok ⟨E.SUCCESS, ⟨[], none⟩,
            [Event.RemoveSessionServer, Event.UnregNodeDeviceStateCb 1]⟩ := by
  refine ⟨rfl, rfl, rfl, rfl⟩

/-- C13: `Init` with an empty listener returns `SUCCESS`, makes no transport
call and leaves the state unchanged; with a listener, when
`CreateSessionServer` fails it returns `ERR_OPENSESSION` and the state
(binding included) is as before, and when it succeeds it returns `SUCCESS`
and the binding is exactly the new listener, whatever was bound before; the
session map is unchanged in all three cases. -/
theorem Init_cases (E : Errors) (s : CommunicatorSoftbusAdapter) (nl : SoftBusListener)
    (r : Int) :
    Init E s none r = ⟨E.SUCCESS, s, []⟩
    ∧ (r ≠ 0 →
        (Init E s (some nl) r).ret = E.ERR_OPENSESSION ∧ (Init E s (some nl) r).state = s)
    ∧ (r = 0 →
        (Init E s (some nl) r).ret = E.SUCCESS
        ∧ (Init E s (some nl) r).state.networkListener_ = some nl
        ∧ (Init E s (some nl) r).state.sessionDevDic_ = s.sessionDevDic_) := by
  refine ⟨rfl, ?_, ?_⟩
  · intro hr
    simp [Init, hr]
  · intro hr
    simp [Init, hr]

theorem Init_cases_witness :
    ((1 : Int) ≠ 0
      ∧ (Init sampleErrors ⟨[("deviceA", 7)], none⟩ (some listenerA) 1).ret
          = sampleErrors.ERR_OPENSESSION
      ∧ (Init sampleErrors ⟨[("deviceA", 7)], none⟩ (some listenerA) 1).state
          = ⟨[("deviceA", 7)], none⟩)
    ∧ ((0 : Int) = 0
      ∧ (Init sampleErrors ⟨[("deviceA", 7)], none⟩ (some listenerA) 0).state
          = ⟨[("deviceA", 7)], some listenerA⟩) :=
  ⟨⟨by decide, (Init_cases sampleErrors ⟨[("deviceA", 7)], none⟩ listenerA 1).2.1 (by decide)⟩,
   ⟨rfl, by decide⟩⟩

/-- The state after `SendMsg` is the state before it. -/
theorem SendMsg_keeps_state (E : Errors) (K : SendKinds) (s : CommunicatorSoftbusAdapter)
    (networkId : String) (data : Bytes) (dataSize : Nat) (type rb rm : Int) :
    (SendMsg E K s networkId data dataSize type rb rm).state = s := by
  cases hl : s.sessionDevDic_.lookup networkId with
  | none => rw [SendMsg_absent E K s networkId data dataSize type rb rm hl]
  | some h => rw [SendMsg_present E K s networkId h data dataSize type rb rm hl]

/-- C14: `SendMsg` never changes the communicator: for every state, peer,
payload, kind and transport results, the state after the call (session map
and listener binding) is the state before it; a failed send removes nothing
and the lookup of an absent peer inserts nothing. -/
theorem SendMsg_state_unchanged (E : Errors) (K : SendKinds) (s : CommunicatorSoftbusAdapter)
    (networkId : String) (data : Bytes) (dataSize : Nat) (type rb rm : Int) :
    (SendMsg E K s networkId data dataSize type rb rm).state = s := by
  cases hl : s.sessionDevDic_.lookup networkId with
  | none => rw [SendMsg_absent E K s networkId data dataSize type rb rm hl]
  | some h => rw [SendMsg_present E K s networkId h data dataSize type rb rm hl]

/-! ## Softbus communicator: stored handles -/

theorem SessionMap.assign_nonneg (m : SessionMap) (k : String) (v : Int)
    (hm : ∀ p ∈ m, 0 ≤ p.2) (hv : 0 ≤ v) : ∀ p ∈ m.assign k v, 0 ≤ p.2 := by
  induction m with
  | nil =>
    intro p hp
    simp [SessionMap.assign] at hp
    simp [hp, hv]
  | cons q rest ih =>
    obtain ⟨k1, v1⟩ := q
    intro p hp
    by_cases hk : k1 = k
    · simp only [SessionMap.assign, hk, if_true, List.mem_cons] at hp
      rcases hp with hp | hp
      · simp [hp, hv]
      · exact hm p (List.mem_cons_of_mem _ hp)
    · simp only [SessionMap.assign, hk, if_false, List.mem_cons] at hp
      rcases hp with hp | hp
      · exact hm p (by simp [hp])
      · exact ih (fun p hp => hm p (List.mem_cons_of_mem _ hp)) p hp

theorem SessionMap.index_nonneg (m : SessionMap) (k : String)
    (hm : ∀ p ∈ m, 0 ≤ p.2) : ∀ p ∈ (m.index k).2, 0 ≤ p.2 := by
  unfold SessionMap.index
  cases hl : m.lookup k with
  | none => exact SessionMap.assign_nonneg m k 0 hm (le_refl 0)
  | some v => exact hm

/-- One call keeps every stored handle non-negative. -/
theorem step_nonneg (E : Errors) (K : SendKinds) (s : CommunicatorSoftbusAdapter) (c : Call)
    (o : Outcome) (hs : ∀ p ∈ s.sessionDevDic_, 0 ≤ p.2) (hstep : step E K s c = Except.ok o) :
    ∀ p ∈ o.state.sessionDevDic_, 0 ≤ p.2 := by
  cases c with
  | Init l r =>
    simp only [step, Except.ok.injEq] at hstep
    subst hstep
    cases l with
    | none => exact hs
    | some nl =>
      by_cases hr : r = 0
      · simpa [Init, hr] using hs
      · simpa [Init, hr] using hs
  | OpenSoftbusLink n i r =>
    simp only [step, Except.ok.injEq] at hstep
    subst hstep
    unfold OpenSoftbusLink
    by_cases hc : 0 ≠ s.sessionDevDic_.count i
    · rw [if_pos hc]
      cases hcb : sessionOpenedCallback s.networkListener_ with
      | none => exact hs
      | some cb => exact SessionMap.index_nonneg _ _ hs
    · rw [if_neg hc]
      by_cases hr : r < 0
      · simp only [hr, if_true]
        cases hcb : sessionOpenedCallback s.networkListener_ with
        | none => exact hs
        | some cb => exact SessionMap.index_nonneg _ _ hs
      · simp only [hr, if_false]
        exact SessionMap.assign_nonneg _ _ _ hs (by omega)
  | Destroy r =>
    simp only [step, Destroy] at hstep
    split at hstep
    · simp only [Except.ok.injEq] at hstep
      subst hstep
      exact hs
    · split at hstep
      · simp at hstep
      · simp only [Except.ok.injEq] at hstep
        subst hstep
        simp
  | SendMsg i d n t rb rm =>
    simp only [step, Except.ok.injEq] at hstep
    subst hstep
    rw [SendMsg_keeps_state]
    exact hs

/-- A run from a state whose handles are non-negative only passes through
such states. -/
theorem run_nonneg (E : Errors) (K : SendKinds) (cs : List Call) :
    ∀ (s : CommunicatorSoftbusAdapter) (os : List Outcome) (s1 : CommunicatorSoftbusAdapter),
      (∀ p ∈ s.sessionDevDic_, 0 ≤ p.2) → run E K s cs = Except.ok (os, s1) →
      (∀ p ∈ s1.sessionDevDic_, 0 ≤ p.2)
      ∧ ∀ o ∈ os, ∀ p ∈ o.state.sessionDevDic_, 0 ≤ p.2 := by
  induction cs with
  | nil =>
    intro s os s1 hs hrun
    simp only [run, Except.ok.injEq, Prod.mk.injEq] at hrun
    obtain ⟨h1, h2⟩ := hrun
    subst h1 h2
    exact ⟨hs, by simp⟩
  | cons c cs ih =>
    intro s os s1 hs hrun
    simp only [run] at hrun
    cases hstep : step E K s c with
    | error f => simp [hstep] at hrun
    | ok o =>
      have ho := step_nonneg E K s c o hs hstep
      simp only [hstep] at hrun
      cases hrest : run E K o.state cs with
      | error f => simp [hrest] at hrun
      | ok res =>
        obtain ⟨os2, s2⟩ := res
        simp only [hrest, Except.ok.injEq, Prod.mk.injEq] at hrun
        obtain ⟨h1, h2⟩ := hrun
        subst h1 h2
        obtain ⟨hfin, hall⟩ := ih o.state os2 s2 ho hrest
        refine ⟨hfin, ?_⟩
        intro o2 ho2
        rcases List.mem_cons.mp ho2 with heq | hmem
        · rw [heq]; exact ho
        · exact hall o2 hmem

/-- C15: whatever sequence of `Init`, `OpenSoftbusLink`, `Destroy` and
`SendMsg` calls is run from the freshly constructed communicator, with
whatever transport results, every session handle stored in the map is
non-negative, in the final state and in the state after each call. -/
theorem stored_handles_nonneg (E : Errors) (K : SendKinds) (cs : List Call)
    (os : List Outcome) (s : CommunicatorSoftbusAdapter)
    (hrun : run E K CommunicatorSoftbusAdapter.fresh cs = Except.ok (os, s)) :
    (∀ p ∈ s.sessionDevDic_, 0 ≤ p.2)
    ∧ ∀ o ∈ os, ∀ p ∈ o.state.sessionDevDic_, 0 ≤ p.2 :=
  run_nonneg E K cs CommunicatorSoftbusAdapter.fresh os s
    (by simp [CommunicatorSoftbusAdapter.fresh]) hrun

theorem stored_handles_nonneg_witness :
    run sampleErrors sampleKinds CommunicatorSoftbusAdapter.fresh
        [Call.Init (some listenerA) 0, Call.OpenSoftbusLink "net" "deviceA" (-1),
          Call.OpenSoftbusLink "net" "deviceB" 7]
      = Except.ok
          ([⟨0, ⟨[], some listenerA⟩,
              [Event.RegNodeDeviceStateCb 1, Event.CreateSessionServer (some ⟨some 2⟩)]⟩,
            ⟨1, ⟨[("deviceA", 0)], some listenerA⟩,
              [Event.OpenSession "deviceA", Event.OnSessionOpened 2 0 1]⟩,
            ⟨0, ⟨[("deviceA", 0), ("deviceB", 7)], some listenerA⟩,
              [Event.OpenSession "deviceB"]⟩],
           ⟨[("deviceA", 0), ("deviceB", 7)], some listenerA⟩)
    ∧ ∀ p ∈ [("deviceA", (0 : Int)), ("deviceB", 7)], 0 ≤ p.2 := by
  have hrun : run sampleErrors sampleKinds CommunicatorSoftbusAdapter.fresh
        [Call.Init (some listenerA) 0, Call.OpenSoftbusLink "net" "deviceA" (-1),
          Call.OpenSoftbusLink "net" "deviceB" 7]
      = Except.ok
          ([⟨0, ⟨[], some listenerA⟩,
              [Event.RegNodeDeviceStateCb 1, Event.CreateSessionServer (some ⟨some 2⟩)]⟩,
            ⟨1, ⟨[("deviceA", 0)], some listenerA⟩,
              [Event.OpenSession "deviceA", Event.OnSessionOpened 2 0 1]⟩,
            ⟨0, ⟨[("deviceA", 0), ("deviceB", 7)], some listenerA⟩,
              [Event.OpenSession "deviceB"]⟩],
           ⟨[("deviceA", 0), ("deviceB", 7)], some listenerA⟩) := by
    simp only [run, step, Except.ok.injEq]
    decide
  exact ⟨hrun, (stored_handles_nonneg sampleErrors sampleKinds _ _ _ hrun).1⟩

/-- C19: `Destroy` uses `networkListener_` without a null check once the
removal has succeeded. With no listener bound and a removal result of `0` it
faults (null dereference) instead of returning; it returns exactly when a
listener is bound or the removal fails. No listener is bound on the freshly
constructed communicator, after `Init` with an empty listener on it, and
after any `Destroy` that returned with a removal result of `0`. -/
theorem Destroy_null_listener (E : Errors) (s : CommunicatorSoftbusAdapter) (r : Int) :
    (s.networkListener_ = none → r = 0 → Destroy E s r = Except.error Fault.nullDereference)
    ∧ ((∃ o, Destroy E s r = Except.ok o) ↔ (s.networkListener_ ≠ none ∨ r ≠ 0))
    ∧ CommunicatorSoftbusAdapter.fresh.networkListener_ = none
    ∧ (Init E CommunicatorSoftbusAdapter.fresh none r).state.networkListener_ = none
    ∧ (∀ o, Destroy E s 0 = Except.ok o → o.state.networkListener_ = none) := by
  refine ⟨?_, ?_, rfl, rfl, ?_⟩
  · intro hn hr
    simp [Destroy, hn, hr]
  · by_cases hr : r = 0
    · cases hn : s.networkListener_ with
      | none => simp [Destroy, hn, hr]
      | some nl => simp [Destroy, hn, hr]
    · simp [Destroy, hr]
  · intro o ho
    cases hn : s.networkListener_ with
    | none => simp [Destroy, hn] at ho
    | some nl =>
      simp only [Destroy, hn, ne_eq, not_true_eq_false, if_false, Except.ok.injEq] at ho
      rw [← ho]

theorem Destroy_null_listener_witness :
    (⟨[("deviceA", 7)], none⟩ : CommunicatorSoftbusAdapter).networkListener_ = none
    ∧ (0 : Int) = 0
    ∧ Destroy sampleErrors ⟨[("deviceA", 7)], none⟩ 0 = Except.error Fault.nullDereference :=
  ⟨rfl, rfl, (Destroy_null_listener sampleErrors ⟨[("deviceA", 7)], none⟩ 0).1 rfl rfl⟩

/-- C20: in a state that maps `networkId` to a handle, with `SUCCESS` being
`0`, a `SendMsg` whose `type` is neither `TYPE_SEND_BYTE` nor
`TYPE_SEND_MESSAGE` makes no transport call, returns `SUCCESS` and leaves the
state as it was. -/
theorem SendMsg_unknown_kind (E : Errors) (K : SendKinds) (s : CommunicatorSoftbusAdapter)
    (networkId : String) (h : Int) (data : Bytes) (dataSize : Nat) (type rb rm : Int)
    (hl : s.sessionDevDic_.lookup networkId = some h)
    (hb : type ≠ K.TYPE_SEND_BYTE) (hm : type ≠ K.TYPE_SEND_MESSAGE)
    (h0 : E.SUCCESS = 0) :
    SendMsg E K s networkId data dataSize type rb rm = ⟨E.SUCCESS, s, []⟩ := by
  rw [SendMsg_present E K s networkId h data dataSize type rb rm hl]
  simp [hb, hm, h0]

theorem SendMsg_unknown_kind_witness :
    List.lookup "deviceA" [("deviceA", (7 : Int))] = some 7
    ∧ (5 : Int) ≠ sampleKinds.TYPE_SEND_BYTE ∧ (5 : Int) ≠ sampleKinds.TYPE_SEND_MESSAGE
    ∧ sampleErrors.SUCCESS = 0
    ∧ SendMsg sampleErrors sampleKinds ⟨[("deviceA", 7)], none⟩ "deviceA" [1, 2, 3] 3 5 1 1
        = ⟨0, ⟨[("deviceA", 7)], none⟩, []⟩ :=
  ⟨by decide, by decide, by decide, rfl,
   SendMsg_unknown_kind sampleErrors sampleKinds ⟨[("deviceA", 7)], none⟩ "deviceA" 7 [1, 2, 3]
     3 5 1 1 (by decide) (by decide) (by decide) rfl⟩

/-! ## Field codec: character, width and type discrimination -/

/-- On a little-endian host `PutChar` hands over six bytes, the tag
`00 00 00 07` and the two bytes of the character converted to `uint16_t`,
high byte first; for a character code `0..127` the payload is `00` and the
code, and for a negative `char` value (`-128..-1`) the conversion
sign-extends, so the payload is `FF` and the character's byte. -/
theorem PutChar_layout (E : Errors) (h : Host) (hle : h.endian = Endian.little)
    (o : FlatObject) (key : StdString) (c : Int) :
    (PutChar E h o key c).2.fields
        = o.fields ++ [(StrToFieldBytes h key,
            [0, 0, 0, 7, byteOf (c % 2 ^ 16) 1, byteOf (c % 2 ^ 16) 0])]
    ∧ (0 ≤ c → c ≤ 127 →
        (PutChar E h o key c).2.fields
          = o.fields ++ [(StrToFieldBytes h key, [0, 0, 0, 7, 0, c.toNat])])
    ∧ (-128 ≤ c → c < 0 →
        (PutChar E h o key c).2.fields
          = o.fields ++ [(StrToFieldBytes h key, [0, 0, 0, 7, 255, (c + 256).toNat])]) := by
  have t7 := beBytes_tag 7 (by norm_num)
  simp only [Nat.cast_ofNat] at t7
  have main : (PutChar E h o key c).2.fields
      = o.fields ++ [(StrToFieldBytes h key,
          [0, 0, 0, 7, byteOf (c % 2 ^ 16) 1, byteOf (c % 2 ^ 16) 0])] := by
    simp only [PutChar, FlatObject.SetField, TransBytes_little h hle 2 (by norm_num),
      VAL_CHARACTER, t7]
    simp [beBytes, List.range, List.range.loop]
  refine ⟨main, ?_, ?_⟩
  · intro h0 h1
    rw [main]
    have e1 : byteOf (c % 2 ^ 16) 1 = 0 := by
      unfold byteOf
      norm_num
      omega
    have e0 : byteOf (c % 2 ^ 16) 0 = c.toNat := by
      unfold byteOf
      norm_num
      omega
    rw [e1, e0]
  · intro h0 h1
    rw [main]
    have e1 : byteOf (c % 2 ^ 16) 1 = 255 := by
      unfold byteOf
      norm_num
      omega
    have e0 : byteOf (c % 2 ^ 16) 0 = (c + 256).toNat := by
      unfold byteOf
      norm_num
      omega
    rw [e1, e0]

theorem PutChar_layout_witness :
    ((0 : Int) ≤ 65 ∧ (65 : Int) ≤ 127
      ∧ (PutChar sampleErrors littleHostAA ⟨[]⟩ [107] 65).2.fields
          = [([0, 0, 0, 0, 107], [0, 0, 0, 7, 0, 65])])
    ∧ ((-128 : Int) ≤ -2 ∧ (-2 : Int) < 0
      ∧ (PutChar sampleErrors littleHostAA ⟨[]⟩ [107] (-2)).2.fields
          = [([0, 0, 0, 0, 107], [0, 0, 0, 7, 255, 254])]) :=
  ⟨⟨by decide, by decide,
    (PutChar_layout sampleErrors littleHostAA rfl ⟨[]⟩ [107] 65).2.1 (by decide) (by decide)⟩,
   ⟨by decide, by decide,
    (PutChar_layout sampleErrors littleHostAA rfl ⟨[]⟩ [107] (-2)).2.2 (by decide)
      (by decide)⟩⟩

/-- On a little-endian host `PutNum` stores, at `offset + i`, the byte at
`valLen - i - 1` behind `val`, for any width up to eight. -/
theorem PutNum_little_eq (offset : Nat) (m : Mem) (valLen : Nat) (data : Bytes)
    (h8 : valLen ≤ 8) (hlen : valLen + offset < 2 ^ 32) :
    PutNum Endian.little offset m valLen data
      = (if valLen + offset > data.length then resize data (valLen + offset) else data).take offset
        ++ (List.range valLen).map (fun i => m (valLen - i - 1) % 256)
        ++ (if valLen + offset > data.length then resize data (valLen + offset) else data).drop
            (offset + valLen) := by
  rw [PutNum_eq _ _ _ _ _ hlen]
  congr 2
  apply List.map_congr_left
  intro i hi
  have hi : i < valLen := List.mem_range.mp hi
  exact loadU64_little_byte m (valLen - i - 1) (by omega)

/-- C17: on a little-endian host, for a width `valLen` in `1..8`, two memory
contents that agree on the `valLen` bytes of the value (and may differ in
the bytes behind it that the eight-byte load also covers) make `PutNum`
produce the same vector, and the byte it stores at `offset + i` is byte
`valLen - 1 - i` of the value. -/
theorem PutNum_little_no_leak (offset valLen : Nat) (m1 m2 : Mem) (data : Bytes)
    (h1 : 1 ≤ valLen) (h8 : valLen ≤ 8) (hlen : valLen + offset < 2 ^ 32)
    (hagree : ∀ j, j < valLen → m1 j = m2 j) :
    PutNum Endian.little offset m1 valLen data = PutNum Endian.little offset m2 valLen data
    ∧ ∀ i, i < valLen →
        (PutNum Endian.little offset m1 valLen data)[offset + i]?
          = some (m1 (valLen - 1 - i) % 256) := by
  constructor
  · rw [PutNum_little_eq offset m1 valLen data h8 hlen,
      PutNum_little_eq offset m2 valLen data h8 hlen]
    congr 2
    apply List.map_congr_left
    intro i hi
    have hi : i < valLen := List.mem_range.mp hi
    rw [hagree (valLen - i - 1) (by omega)]
  · intro i hi
    rw [PutNum_little_eq offset m1 valLen data h8 hlen]
    have hd : offset + valLen ≤
        (if valLen + offset > data.length then resize data (valLen + offset) else data).length := by
      split
      · simp [resize]; omega
      · omega
    generalize (if valLen + offset > data.length then resize data (valLen + offset) else data)
      = d at hd
    have htake : (d.take offset).length = offset := by
      simp; omega
    rw [List.append_assoc, List.getElem?_append_right (by omega), htake, Nat.add_sub_cancel_left,
      List.getElem?_append_left (by simpa using hi)]
    simp [List.getElem?_range, hi]
    congr 2
    omega

theorem PutNum_little_no_leak_witness :
    PutNum Endian.little 4 (memAt [1, 2] (fun _ => 0xAA)) 2 [9, 9, 9, 9, 9, 9]
        = PutNum Endian.little 4 (memAt [1, 2] (fun _ => 0x55)) 2 [9, 9, 9, 9, 9, 9]
    ∧ (PutNum Endian.little 4 (memAt [1, 2] (fun _ => 0xAA)) 2 [9, 9, 9, 9, 9, 9])[4 + 0]?
        = some 2 :=
  ⟨(PutNum_little_no_leak 4 2 (memAt [1, 2] (fun _ => 0xAA)) (memAt [1, 2] (fun _ => 0x55))
      [9, 9, 9, 9, 9, 9] (by decide) (by decide) (by decide)
      (by intro j hj; interval_cases j <;> rfl)).1,
   (PutNum_little_no_leak 4 2 (memAt [1, 2] (fun _ => 0xAA)) (memAt [1, 2] (fun _ => 0x55))
      [9, 9, 9, 9, 9, 9] (by decide) (by decide) (by decide)
      (by intro j hj; interval_cases j <;> rfl)).2 0 (by decide)⟩

/-- On a little-endian host the value buffer of each typed `Put`: tag, then
payload. -/
theorem TypedPut.lastValue_little (E : Errors) (h : Host) (hle : h.endian = Endian.little)
    (o : FlatObject) (key : StdString) (c : TypedPut) :
    (c.call E h o key).2.lastValue
      = match c with
        | TypedPut.char v => [0, 0, 0, 7] ++ beBytes 2 (v % 2 ^ 16)
        | TypedPut.int v => [0, 0, 0, 1] ++ beBytes 4 v
        | TypedPut.short v => [0, 0, 0, 3] ++ beBytes 2 v
        | TypedPut.long v => [0, 0, 0, 4] ++ beBytes 8 v
        | TypedPut.boolean b => [0, 0, 0, 2] ++ beBytes 4 (if b then 1 else 0)
        | TypedPut.string v => [0, 0, 0, 0] ++ StrToBytes v
        | TypedPut.byte v => [0, 0, 0, 8] ++ beBytes 1 v := by
  have t7 := beBytes_tag 7 (by norm_num)
  have t1 := beBytes_tag 1 (by norm_num)
  have t3 := beBytes_tag 3 (by norm_num)
  have t4 := beBytes_tag 4 (by norm_num)
  have t2 := beBytes_tag 2 (by norm_num)
  have t8 := beBytes_tag 8 (by norm_num)
  simp only [Nat.cast_ofNat, Nat.cast_one] at t7 t1 t3 t4 t2 t8
  cases c with
  | char v =>
    simp only [TypedPut.call, PutChar, FlatObject.SetField, FlatObject.lastValue,
      TransBytes_little h hle 2 (by norm_num), VAL_CHARACTER, t7, List.getLast?_append,
      List.getLast?_singleton, Option.or_some]
  | int v =>
    simp only [TypedPut.call, PutInt, FlatObject.SetField, FlatObject.lastValue,
      TransBytes_little h hle 4 (by norm_num), VAL_INTEGER, t1, List.getLast?_append,
      List.getLast?_singleton, Option.or_some]
  | short v =>
    simp only [TypedPut.call, PutShort, FlatObject.SetField, FlatObject.lastValue,
      TransBytes_little h hle 2 (by norm_num), VAL_SHORT, t3, List.getLast?_append,
      List.getLast?_singleton, Option.or_some]
  | long v =>
    simp only [TypedPut.call, PutLong, FlatObject.SetField, FlatObject.lastValue,
      TransBytes_little h hle 8 (by norm_num), VAL_LONG, t4, List.getLast?_append,
      List.getLast?_singleton, Option.or_some]
  | boolean b =>
    simp only [TypedPut.call, PutBoolean, FlatObject.SetField, FlatObject.lastValue,
      TransBytes_little h hle 4 (by norm_num), VAL_BOOLEAN, t2, List.getLast?_append,
      List.getLast?_singleton, Option.or_some]
  | string v =>
    simp only [TypedPut.call, PutString, FlatObject.SetField, FlatObject.lastValue,
      StrToFieldBytes_little h hle v, List.getLast?_append,
      List.getLast?_singleton, Option.or_some]
  | byte v =>
    simp only [TypedPut.call, PutByte, FlatObject.SetField, FlatObject.lastValue,
      TransBytes_little h hle 1 (by norm_num), VAL_BYTE, t8, List.getLast?_append,
      List.getLast?_singleton, Option.or_some]

/-- Equal one-byte payloads fix the value modulo `2^8`. -/
theorem beBytes_one_inj (v1 v2 : Int) (h : beBytes 1 v1 = beBytes 1 v2) :
    v1 % 256 = v2 % 256 := by
  simp [beBytes, byteOf, List.range, List.range.loop] at h
  omega

/-- Equal two-byte payloads fix the value modulo `2^16`. -/
theorem beBytes_two_inj (v1 v2 : Int) (h : beBytes 2 v1 = beBytes 2 v2) :
    v1 % 65536 = v2 % 65536 := by
  simp [beBytes, byteOf, List.range, List.range.loop] at h
  omega

/-- Equal four-byte payloads fix the value modulo `2^32`. -/
theorem beBytes_four_inj (v1 v2 : Int) (h : beBytes 4 v1 = beBytes 4 v2) :
    v1 % 4294967296 = v2 % 4294967296 := by
  simp [beBytes, byteOf, List.range, List.range.loop] at h
  omega

/-- Equal eight-byte payloads fix the value modulo `2^64`. -/
theorem beBytes_eight_inj (v1 v2 : Int) (h : beBytes 8 v1 = beBytes 8 v2) :
    v1 % 18446744073709551616 = v2 % 18446744073709551616 := by
  simp [beBytes, byteOf, List.range, List.range.loop] at h
  obtain ⟨h7, h6, h5, h4, h3, h2, h1, h0⟩ := h
  have key : ∀ a b : Int,
      (a / 16777216 % 256).toNat = (b / 16777216 % 256).toNat →
      (a / 65536 % 256).toNat = (b / 65536 % 256).toNat →
      (a / 256 % 256).toNat = (b / 256 % 256).toNat →
      (a % 256).toNat = (b % 256).toNat →
      a % 4294967296 = b % 4294967296 := by
    intro a b e3 e2 e1 e0
    omega
  have lo := key v1 v2 h3 h2 h1 h0
  have d7 : ∀ v : Int, v / 72057594037927936 = v / 4294967296 / 16777216 := by
    intro v; omega
  have d6 : ∀ v : Int, v / 281474976710656 = v / 4294967296 / 65536 := by
    intro v; omega
  have d5 : ∀ v : Int, v / 1099511627776 = v / 4294967296 / 256 := by
    intro v; omega
  rw [d7 v1, d7 v2] at h7
  rw [d6 v1, d6 v2] at h6
  rw [d5 v1, d5 v2] at h5
  have hi := key (v1 / 4294967296) (v2 / 4294967296) h7 h6 h5 h4
  omega

/-- On a little-endian host, two typed values (each in the range of
its parameter type) passed to `PutChar`, `PutInt`, `PutShort`, `PutLong`,
`PutBoolean`, `PutString` or `PutByte` give equal value buffers only when the
encoder and the value are the same; `PutInt` of `1` and `PutBoolean` of
`true` give `00 00 00 01 00 00 00 01` and `00 00 00 02 00 00 00 01`, the
same payload under different tags. -/
theorem value_buffers_discriminate (E : Errors) (h : Host) (hle : h.endian = Endian.little)
    (o1 o2 : FlatObject) (k1 k2 : StdString) (c1 c2 : TypedPut)
    (r1 : c1.inRange = true) (r2 : c2.inRange = true) :
    ((c1.call E h o1 k1).2.lastValue = (c2.call E h o2 k2).2.lastValue → c1 = c2)
    ∧ ((TypedPut.int 1).call E h o1 k1).2.lastValue = [0, 0, 0, 1, 0, 0, 0, 1]
    ∧ ((TypedPut.boolean true).call E h o2 k2).2.lastValue = [0, 0, 0, 2, 0, 0, 0, 1] := by
  refine ⟨?_, ?_, ?_⟩
  · intro heq
    rw [TypedPut.lastValue_little E h hle o1 k1 c1,
      TypedPut.lastValue_little E h hle o2 k2 c2] at heq
    cases c1 with
    | char v1 =>
      cases c2 with
      | char v2 =>
        simp only [TypedPut.inRange, decide_eq_true_eq] at r1 r2
        have e := beBytes_two_inj _ _ (List.append_cancel_left heq)
        have : v1 = v2 := by omega
        rw [this]
      | _ => simp at heq
    | int v1 =>
      cases c2 with
      | int v2 =>
        simp only [TypedPut.inRange, decide_eq_true_eq] at r1 r2
        have e := beBytes_four_inj _ _ (List.append_cancel_left heq)
        have : v1 = v2 := by omega
        rw [this]
      | _ => simp at heq
    | short v1 =>
      cases c2 with
      | short v2 =>
        simp only [TypedPut.inRange, decide_eq_true_eq] at r1 r2
        have e := beBytes_two_inj _ _ (List.append_cancel_left heq)
        have : v1 = v2 := by omega
        rw [this]
      | _ => simp at heq
    | long v1 =>
      cases c2 with
      | long v2 =>
        simp only [TypedPut.inRange, decide_eq_true_eq] at r1 r2
        have e := beBytes_eight_inj _ _ (List.append_cancel_left heq)
        have : v1 = v2 := by omega
        rw [this]
      | _ => simp at heq
    | boolean b1 =>
      cases c2 with
      | boolean b2 =>
        have e := beBytes_four_inj _ _ (List.append_cancel_left heq)
        cases b1 <;> cases b2 <;> simp at e <;> rfl
      | _ => simp at heq
    | string s1 =>
      cases c2 with
      | string s2 =>
        have e := StrToBytes_injective (List.append_cancel_left heq)
        rw [e]
      | _ => simp at heq
    | byte v1 =>
      cases c2 with
      | byte v2 =>
        simp only [TypedPut.inRange, decide_eq_true_eq] at r1 r2
        have e := beBytes_one_inj _ _ (List.append_cancel_left heq)
        have : v1 = v2 := by omega
        rw [this]
      | _ => simp at heq
  · rw [TypedPut.lastValue_little E h hle o1 k1]
    decide
  · rw [TypedPut.lastValue_little E h hle o2 k2]
    decide

/-! ## Field codec: the encoders on a big-endian host

`PutNum` loads eight bytes whatever the width of the value. On a big-endian
host the shifts by `(valLen - i - 1) * 8` then select the last `valLen` bytes
of the load, which for `valLen < 8` lie behind the object. The evaluations
below use `bigHostAA`, where every such byte is `0xAA`. -/

/-- C1: on a big-endian host the numeric encoders do not hand over
`00 00 00 tag` followed by the value's bytes. `PutShort` gives
`AA AA AA AA AA AA` for the value `1` and for the value `2`, `PutByte` gives
`AA AA AA AA AA`, `PutFloat` gives `AA` eight times, and `PutDouble` gives the
tag bytes `AA AA AA AA` before a payload that is right only because it is
eight bytes wide; on the little-endian host the same `PutShort` gives
`00 00 00 03 00 01`. -/
theorem numeric_encoders_on_big_endian_host :
    (PutShort sampleErrors bigHostAA ⟨[]⟩ [107] 1).2.fields
        = [([0xAA, 0xAA, 0xAA, 0xAA, 107], [0xAA, 0xAA, 0xAA, 0xAA, 0xAA, 0xAA])]
    ∧ (PutShort sampleErrors bigHostAA ⟨[]⟩ [107] 2).2.fields
        = [([0xAA, 0xAA, 0xAA, 0xAA, 107], [0xAA, 0xAA, 0xAA, 0xAA, 0xAA, 0xAA])]
    ∧ (PutByte sampleErrors bigHostAA ⟨[]⟩ [107] 1).2.fields
        = [([0xAA, 0xAA, 0xAA, 0xAA, 107], [0xAA, 0xAA, 0xAA, 0xAA, 0xAA])]
    ∧ (PutFloat sampleErrors bigHostAA ⟨[]⟩ [107] 1).2.fields
        = [([0xAA, 0xAA, 0xAA, 0xAA, 107],
            [0xAA, 0xAA, 0xAA, 0xAA, 0xAA, 0xAA, 0xAA, 0xAA])]
    ∧ (PutDouble sampleErrors bigHostAA ⟨[]⟩ [107] 1).2.fields
        = [([0xAA, 0xAA, 0xAA, 0xAA, 107],
            [0xAA, 0xAA, 0xAA, 0xAA, 0, 0, 0, 0, 0, 0, 0, 1])]
    ∧ (PutShort sampleErrors littleHostAA ⟨[]⟩ [107] 1).2.fields
        = [([0, 0, 0, 0, 107], [0, 0, 0, 3, 0, 1])] := by
  decide

/-- C3: on a big-endian host `StrToFieldBytes` does not start with
`00 00 00 00`. The four bytes `PutNum` stores are those behind the global
`VAL_STRING`: the empty string gives `AA AA AA AA` and `"id"` gives
`AA AA AA AA 69 64`, where the little-endian host gives `00 00 00 00` and
`00 00 00 00 69 64`. -/
theorem StrToFieldBytes_on_big_endian_host :
    StrToFieldBytes bigHostAA [] = [0xAA, 0xAA, 0xAA, 0xAA]
    ∧ StrToFieldBytes bigHostAA [105, 100] = [0xAA, 0xAA, 0xAA, 0xAA, 105, 100]
    ∧ StrToFieldBytes littleHostAA [] = [0, 0, 0, 0]
    ∧ StrToFieldBytes littleHostAA [105, 100] = [0, 0, 0, 0, 105, 100] := by
  decide

/-- C5: on a big-endian host `PutBoolean` hands over `AA` eight times for
`true` and for `false` alike, neither the BOOLEAN tag nor the value; the
little-endian host gives `00 00 00 02 00 00 00 01` for `true`. -/
theorem PutBoolean_on_big_endian_host :
    (PutBoolean sampleErrors bigHostAA ⟨[]⟩ [107] true).2.fields
        = [([0xAA, 0xAA, 0xAA, 0xAA, 107],
            [0xAA, 0xAA, 0xAA, 0xAA, 0xAA, 0xAA, 0xAA, 0xAA])]
    ∧ (PutBoolean sampleErrors bigHostAA ⟨[]⟩ [107] false).2.fields
        = [([0xAA, 0xAA, 0xAA, 0xAA, 107],
            [0xAA, 0xAA, 0xAA, 0xAA, 0xAA, 0xAA, 0xAA, 0xAA])]
    ∧ (PutBoolean sampleErrors littleHostAA ⟨[]⟩ [107] true).2.fields
        = [([0, 0, 0, 0, 107], [0, 0, 0, 2, 0, 0, 0, 1])] := by
  decide

/-- C6: on a big-endian host a typed `Put` still returns `SUCCESS` and adds
one pair, but the key buffer does not carry the STRING tag and the value
buffer does not carry the tag of its type: `PutString` of key `"k"` and value
`"id"` hands over `(AA AA AA AA 6B, AA AA AA AA 69 64)`, and `PutLong` of `1`
hands over the key `AA AA AA AA 6B` with a value buffer that starts
`AA AA AA AA` instead of `00 00 00 04`. -/
theorem Put_on_big_endian_host :
    PutString sampleErrors bigHostAA ⟨[]⟩ [107] [105, 100]
        = (sampleErrors.SUCCESS,
            ⟨[([0xAA, 0xAA, 0xAA, 0xAA, 107], [0xAA, 0xAA, 0xAA, 0xAA, 105, 100])]⟩)
    ∧ PutLong sampleErrors bigHostAA ⟨[]⟩ [107] 1
        = (sampleErrors.SUCCESS,
            ⟨[([0xAA, 0xAA, 0xAA, 0xAA, 107],
                [0xAA, 0xAA, 0xAA, 0xAA, 0, 0, 0, 0, 0, 0, 0, 1])]⟩)
    ∧ PutString sampleErrors littleHostAA ⟨[]⟩ [107] [105, 100]
        = (sampleErrors.SUCCESS, ⟨[([0, 0, 0, 0, 107], [0, 0, 0, 0, 105, 100])]⟩) := by
  decide

/-- C16: on a big-endian host `PutChar` hands over `AA` six times for the
character `'A'` (65) and for the character value `-2` alike, neither the
CHARACTER tag nor the widened character; the little-endian host gives
`00 00 00 07 00 41` and `00 00 00 07 FF FE`. -/
theorem PutChar_on_big_endian_host :
    (PutChar sampleErrors bigHostAA ⟨[]⟩ [107] 65).2.fields
        = [([0xAA, 0xAA, 0xAA, 0xAA, 107], [0xAA, 0xAA, 0xAA, 0xAA, 0xAA, 0xAA])]
    ∧ (PutChar sampleErrors bigHostAA ⟨[]⟩ [107] (-2)).2.fields
        = [([0xAA, 0xAA, 0xAA, 0xAA, 107], [0xAA, 0xAA, 0xAA, 0xAA, 0xAA, 0xAA])]
    ∧ (PutChar sampleErrors littleHostAA ⟨[]⟩ [107] 65).2.fields
        = [([0, 0, 0, 0, 107], [0, 0, 0, 7, 0, 65])]
    ∧ (PutChar sampleErrors littleHostAA ⟨[]⟩ [107] (-2)).2.fields
        = [([0, 0, 0, 0, 107], [0, 0, 0, 7, 255, 254])] := by
  decide

/-- C18: on a big-endian host value buffers do not tell encoders or values
apart. `PutInt` of `1` and `PutBoolean` of `true`, two different typed
values, both in range, give the same value buffer (`AA` eight times), and so
do `PutInt` of `1` and `PutInt` of `2`; on the little-endian host the first
two give `00 00 00 01 00 00 00 01` and `00 00 00 02 00 00 00 01`. -/
theorem value_buffers_on_big_endian_host :
    (TypedPut.int 1).inRange = true
    ∧ (TypedPut.boolean true).inRange = true
    ∧ (TypedPut.int 2).inRange = true
    ∧ TypedPut.int 1 ≠ TypedPut.boolean true
    ∧ ((TypedPut.int 1).call sampleErrors bigHostAA ⟨[]⟩ [107]).2.lastValue
        = ((TypedPut.boolean true).call sampleErrors bigHostAA ⟨[]⟩ [107]).2.lastValue
    ∧ TypedPut.int 1 ≠ TypedPut.int 2
    ∧ ((TypedPut.int 1).call sampleErrors bigHostAA ⟨[]⟩ [107]).2.lastValue
        = ((TypedPut.int 2).call sampleErrors bigHostAA ⟨[]⟩ [107]).2.lastValue
    ∧ ((TypedPut.int 1).call sampleErrors bigHostAA ⟨[]⟩ [107]).2.lastValue
        = [0xAA, 0xAA, 0xAA, 0xAA, 0xAA, 0xAA, 0xAA, 0xAA]
    ∧ ((TypedPut.int 1).call sampleErrors littleHostAA ⟨[]⟩ [107]).2.lastValue
        = [0, 0, 0, 1, 0, 0, 0, 1]
    ∧ ((TypedPut.boolean true).call sampleErrors littleHostAA ⟨[]⟩ [107]).2.lastValue
        = [0, 0, 0, 2, 0, 0, 0, 1] := by
  decide

end OHOS.ObjectStore
